import Mathlib

/-!
# OutputCell: one character position of the console screen buffer

A shallow embedding of `src/buffer/out/OutputCell.cpp`.

* C++ exceptions (`THROW_HR_IF`) become `Except HRESULT`.
* `std::wstring_view` / `std::vector<wchar_t>` become `List wchar_t`.
* The class `TextAttribute` is declared outside the translated file; the cell
  is therefore polymorphic in the attribute type, and the few external
  constants and functions the file uses are collected in `Externals`.
-/

set_option autoImplicit false

namespace OutputCellModel

/-- A UTF-16 code unit (`wchar_t` on the target platform). -/
abbrev wchar_t := Nat

/-- A 16-bit Windows `WORD`. -/
abbrev WORD := Nat

/-- Windows result code carried by the exception thrown by `THROW_HR_IF`. -/
abbrev HRESULT := Nat

/-- Windows SDK value of `E_INVALIDARG`. -/
def E_INVALIDARG : HRESULT := 0x80070057

/-- Windows SDK value of `COMMON_LVB_LEADING_BYTE`. -/
def COMMON_LVB_LEADING_BYTE : WORD := 0x0100

/-- Windows SDK value of `COMMON_LVB_TRAILING_BYTE`. -/
def COMMON_LVB_TRAILING_BYTE : WORD := 0x0200

/-- The WIL helper `WI_IsFlagSet(val, flag)`: all bits of `flag` are set in `val`. -/
def WI_IsFlagSet (val flag : WORD) : Bool := (val &&& flag) == flag

/-- Modelled from the spec: the class `DbcsAttribute` (declared in a header that
is not part of the translated file) is the DoubleWidthMarker of the spec, a
tagged variant `None | Leading | Trailing`; the default-constructed value is the
standalone marker, here called `Single`. -/
inductive DbcsAttribute where
  | Single
  | Leading
  | Trailing
  deriving DecidableEq, Repr

/-- Default constructor `DbcsAttribute{}`. -/
def DbcsAttribute.default : DbcsAttribute := DbcsAttribute.Single

/-- The method `DbcsAttribute::SetLeading`. -/
def DbcsAttribute.SetLeading (_d : DbcsAttribute) : DbcsAttribute := DbcsAttribute.Leading

/-- The method `DbcsAttribute::SetTrailing`. -/
def DbcsAttribute.SetTrailing (_d : DbcsAttribute) : DbcsAttribute := DbcsAttribute.Trailing

/-- Modelled from the spec: the enumeration `TextAttributeBehavior` (declared in a
header that is not part of the translated file) carries the tag of the
AttributeMode of the spec, `Stored | Current`. -/
inductive TextAttributeBehavior where
  | Stored
  | Current
  deriving DecidableEq, Repr

/-- The legacy interchange record `CHAR_INFO`: one code unit and one attribute word. -/
structure CHAR_INFO where
  UnicodeChar : wchar_t
  Attributes : WORD
  deriving DecidableEq, Repr

/-- Modelled from the spec: the class `OutputCellView` (declared outside the
translated file) is the read-only cell view; it offers the four accessors
`Chars()`, `DbcsAttr()`, `TextAttr()` and `TextAttrBehavior()`. -/
structure OutputCellView (TextAttribute : Type) where
  Chars : List wchar_t
  DbcsAttr : DbcsAttribute
  TextAttr : TextAttribute
  TextAttrBehavior : TextAttributeBehavior

/-- What `OutputCell.cpp` takes from other translation units: the constant
`UNICODE_INVALID`, the constant `InvalidTextAttribute` (built from
`INVALID_COLOR`), the method `TextAttribute::SetFromLegacy` and the width
classifier `IsGlyphFullWidth`. -/
structure Externals (TextAttribute : Type) where
  UNICODE_INVALID : wchar_t
  InvalidTextAttribute : TextAttribute
  SetFromLegacy : TextAttribute → WORD → TextAttribute
  IsGlyphFullWidth : List wchar_t → Bool

/-- The data members of the class `OutputCell`. -/
structure OutputCell (TextAttribute : Type) where
  _singleChar : wchar_t
  _charData : List wchar_t
  _dbcsAttribute : DbcsAttribute
  _textAttribute : TextAttribute
  _behavior : TextAttributeBehavior

variable {TextAttribute : Type}

namespace OutputCell

/-- The free function `operator==`: member-wise comparison of the five data members. -/
def operator_eq [DecidableEq TextAttribute] (a b : OutputCell TextAttribute) : Bool :=
  decide (a._singleChar = b._singleChar) &&
  decide (a._charData = b._charData) &&
  decide (a._dbcsAttribute = b._dbcsAttribute) &&
  decide (a._textAttribute = b._textAttribute) &&
  decide (a._behavior = b._behavior)

/-- The method `OutputCell::_useSingle`. -/
def _useSingle (self : OutputCell TextAttribute) : Bool :=
  self._charData.isEmpty

/-- The method `OutputCell::Chars`: a view of the inline unit or of the unit sequence. -/
def Chars (self : OutputCell TextAttribute) : List wchar_t :=
  if self._useSingle then [self._singleChar] else self._charData

/-- The method `OutputCell::_setFromStringView`. -/
def _setFromStringView (E : Externals TextAttribute) (self : OutputCell TextAttribute)
    (view : List wchar_t) : OutputCell TextAttribute :=
  let self := { self with _singleChar := E.UNICODE_INVALID }
  if h : view.length = 1 then
    { self with _singleChar := view.get ⟨0, by omega⟩ }
  else
    { self with _charData := view }

/-- The method `OutputCell::SetChars`. -/
def SetChars (E : Externals TextAttribute) (self : OutputCell TextAttribute)
    (chars : List wchar_t) : OutputCell TextAttribute :=
  self._setFromStringView E chars

/-- The method `OutputCell::DbcsAttr`, read through the returned reference. -/
def DbcsAttr (self : OutputCell TextAttribute) : DbcsAttribute :=
  self._dbcsAttribute

/-- The method `OutputCell::DbcsAttr`, written through the returned reference. -/
def DbcsAttr_assign (self : OutputCell TextAttribute) (d : DbcsAttribute) :
    OutputCell TextAttribute :=
  { self with _dbcsAttribute := d }

/-- The method `OutputCell::TextAttr`, read through the returned reference. -/
def TextAttr (self : OutputCell TextAttribute) : Except HRESULT TextAttribute :=
  if self._behavior = TextAttributeBehavior.Current then Except.error E_INVALIDARG
  else Except.ok self._textAttribute

/-- The method `OutputCell::TextAttr`, written through the returned reference. -/
def TextAttr_assign (self : OutputCell TextAttribute) (t : TextAttribute) :
    Except HRESULT (OutputCell TextAttribute) :=
  if self._behavior = TextAttributeBehavior.Current then Except.error E_INVALIDARG
  else Except.ok { self with _textAttribute := t }

/-- The method `OutputCell::_setFromBehavior`. -/
def _setFromBehavior (self : OutputCell TextAttribute) (behavior : TextAttributeBehavior) :
    Except HRESULT (OutputCell TextAttribute) :=
  if behavior = TextAttributeBehavior.Stored then Except.error E_INVALIDARG
  else Except.ok self

/-- The method `OutputCell::_setFromCharInfo`. -/
def _setFromCharInfo (E : Externals TextAttribute) (self : OutputCell TextAttribute)
    (charInfo : CHAR_INFO) : OutputCell TextAttribute :=
  let self := { self with _singleChar := charInfo.UnicodeChar }
  let self :=
    if WI_IsFlagSet charInfo.Attributes COMMON_LVB_LEADING_BYTE then
      { self with _dbcsAttribute := self._dbcsAttribute.SetLeading }
    else if WI_IsFlagSet charInfo.Attributes COMMON_LVB_TRAILING_BYTE then
      { self with _dbcsAttribute := self._dbcsAttribute.SetTrailing }
    else self
  let self := { self with _textAttribute := E.SetFromLegacy self._textAttribute charInfo.Attributes }
  { self with _behavior := TextAttributeBehavior.Stored }

/-- The method `OutputCell::_setFromOutputCellView`. Calling `front()` on an
empty view has no defined behaviour; that case yields `none`. -/
def _setFromOutputCellView (E : Externals TextAttribute) (self : OutputCell TextAttribute)
    (cell : OutputCellView TextAttribute) : Option (OutputCell TextAttribute) :=
  let self := { self with _dbcsAttribute := cell.DbcsAttr }
  let self := { self with _textAttribute := cell.TextAttr }
  let self := { self with _behavior := cell.TextAttrBehavior }
  let view := cell.Chars
  if view.length > 1 then
    some { self with _charData := view, _singleChar := E.UNICODE_INVALID }
  else
    match view.head? with
    | some c => some { self with _singleChar := c }
    | none => none

/-- The constructor `OutputCell(charData, dbcsAttribute, behavior)` (tag-mode). -/
def OutputCell_behavior (E : Externals TextAttribute) (charData : List wchar_t)
    (dbcsAttribute : DbcsAttribute) (behavior : TextAttributeBehavior) :
    Except HRESULT (OutputCell TextAttribute) :=
  let self : OutputCell TextAttribute :=
    { _singleChar := E.UNICODE_INVALID
      _charData := []
      _dbcsAttribute := dbcsAttribute
      _textAttribute := E.InvalidTextAttribute
      _behavior := behavior }
  if charData.isEmpty then Except.error E_INVALIDARG
  else
    let self := self._setFromStringView E charData
    self._setFromBehavior behavior

/-- The constructor `OutputCell(charData, dbcsAttribute, textAttribute)` (explicit value). -/
def OutputCell_textAttribute (E : Externals TextAttribute) (charData : List wchar_t)
    (dbcsAttribute : DbcsAttribute) (textAttribute : TextAttribute) :
    Except HRESULT (OutputCell TextAttribute) :=
  let self : OutputCell TextAttribute :=
    { _singleChar := E.UNICODE_INVALID
      _charData := []
      _dbcsAttribute := dbcsAttribute
      _textAttribute := textAttribute
      _behavior := TextAttributeBehavior.Stored }
  if charData.isEmpty then Except.error E_INVALIDARG
  else Except.ok (self._setFromStringView E charData)

/-- The constructor `OutputCell(const CHAR_INFO&)`. The member `_behavior` has no
initializer; it is assigned by `_setFromCharInfo` before anything reads it. -/
def OutputCell_charInfo (E : Externals TextAttribute) (charInfo : CHAR_INFO) :
    OutputCell TextAttribute :=
  let self : OutputCell TextAttribute :=
    { _singleChar := E.UNICODE_INVALID
      _charData := []
      _dbcsAttribute := DbcsAttribute.default
      _textAttribute := E.InvalidTextAttribute
      _behavior := TextAttributeBehavior.Stored }
  self._setFromCharInfo E charInfo

/-- The constructor `OutputCell(const OutputCellView&)`. Only `_charData` is
default-constructed (empty); every other member is assigned by
`_setFromOutputCellView` before anything reads it. -/
def OutputCell_view (E : Externals TextAttribute) (cell : OutputCellView TextAttribute) :
    Option (OutputCell TextAttribute) :=
  let self : OutputCell TextAttribute :=
    { _singleChar := E.UNICODE_INVALID
      _charData := []
      _dbcsAttribute := DbcsAttribute.default
      _textAttribute := E.InvalidTextAttribute
      _behavior := TextAttributeBehavior.Stored }
  self._setFromOutputCellView E cell

/-- The lambda `constructorDispatch` of `_fromUtf16`: builds one cell with the
constructor selected by the active alternative of the variant and appends it. -/
def constructorDispatch (E : Externals TextAttribute)
    (textAttrVariant : TextAttribute ⊕ TextAttributeBehavior)
    (cells : List (OutputCell TextAttribute)) (glyph : List wchar_t)
    (dbcsAttr : DbcsAttribute) : Except HRESULT (List (OutputCell TextAttribute)) :=
  match textAttrVariant with
  | Sum.inl textAttribute =>
    match OutputCell_textAttribute E glyph dbcsAttr textAttribute with
    | Except.ok c => Except.ok (cells ++ [c])
    | Except.error e => Except.error e
  | Sum.inr behavior =>
    match OutputCell_behavior E glyph dbcsAttr behavior with
    | Except.ok c => Except.ok (cells ++ [c])
    | Except.error e => Except.error e

/-- The range-for loop of `_fromUtf16`, threading the vector `cells`. -/
def _fromUtf16_loop (E : Externals TextAttribute)
    (textAttrVariant : TextAttribute ⊕ TextAttributeBehavior) :
    List (List wchar_t) → List (OutputCell TextAttribute) →
      Except HRESULT (List (OutputCell TextAttribute))
  | [], cells => Except.ok cells
  | glyph :: rest, cells =>
    let dbcsAttr := DbcsAttribute.default
    if E.IsGlyphFullWidth glyph then
      let dbcsAttr := dbcsAttr.SetLeading
      match constructorDispatch E textAttrVariant cells glyph dbcsAttr with
      | Except.error e => Except.error e
      | Except.ok cells =>
        let dbcsAttr := dbcsAttr.SetTrailing
        match constructorDispatch E textAttrVariant cells glyph dbcsAttr with
        | Except.error e => Except.error e
        | Except.ok cells => _fromUtf16_loop E textAttrVariant rest cells
    else
      match constructorDispatch E textAttrVariant cells glyph dbcsAttr with
      | Except.error e => Except.error e
      | Except.ok cells => _fromUtf16_loop E textAttrVariant rest cells

/-- The static method `OutputCell::_fromUtf16`. -/
def _fromUtf16 (E : Externals TextAttribute) (utf16Glyphs : List (List wchar_t))
    (textAttrVariant : TextAttribute ⊕ TextAttributeBehavior) :
    Except HRESULT (List (OutputCell TextAttribute)) :=
  _fromUtf16_loop E textAttrVariant utf16Glyphs []

/-- The static method `OutputCell::FromUtf16`. -/
def FromUtf16 (E : Externals TextAttribute) (utf16Glyphs : List (List wchar_t)) :
    Except HRESULT (List (OutputCell TextAttribute)) :=
  _fromUtf16 E utf16Glyphs (Sum.inr TextAttributeBehavior.Current)

end OutputCell

/-- A sample instantiation of the externals, used to evaluate the model on
concrete inputs: attributes are plain legacy words, `UNICODE_INVALID` is
`0xFFFF`, and a glyph counts as full-width when its first unit is at least
`0x1100`. -/
def sampleExternals : Externals Nat where
  UNICODE_INVALID := 0xFFFF
  InvalidTextAttribute := 0xFFFFFFFF
  SetFromLegacy := fun _ w => w % 256
  IsGlyphFullWidth := fun g => decide (0x1100 ≤ g.headD 0)

/-- The members of the cell the explicit-value constructor builds from the
two-unit content `ab`, the standalone marker and the attribute value `7`. -/
def sampleTwoUnitCell : OutputCell Nat where
  _singleChar := 0xFFFF
  _charData := [0x61, 0x62]
  _dbcsAttribute := DbcsAttribute.Single
  _textAttribute := 7
  _behavior := TextAttributeBehavior.Stored

/-- The cell both glyph constructors leave behind when they do not throw: the
member initializers followed by `_setFromStringView`. The explicit-value
alternative stores the value with tag `Stored`; the tag alternative stores
`InvalidTextAttribute` with the given tag. -/
def builtCell (E : Externals TextAttribute)
    (textAttrVariant : TextAttribute ⊕ TextAttributeBehavior)
    (glyph : List wchar_t) (dbcsAttr : DbcsAttribute) : OutputCell TextAttribute :=
  match textAttrVariant with
  | Sum.inl textAttribute =>
    OutputCell._setFromStringView E
      { _singleChar := E.UNICODE_INVALID
        _charData := []
        _dbcsAttribute := dbcsAttr
        _textAttribute := textAttribute
        _behavior := TextAttributeBehavior.Stored } glyph
  | Sum.inr behavior =>
    OutputCell._setFromStringView E
      { _singleChar := E.UNICODE_INVALID
        _charData := []
        _dbcsAttribute := dbcsAttr
        _textAttribute := E.InvalidTextAttribute
        _behavior := behavior } glyph

/-- The cells one glyph contributes to the batch output. -/
def expandGlyph (E : Externals TextAttribute)
    (textAttrVariant : TextAttribute ⊕ TextAttributeBehavior)
    (glyph : List wchar_t) : List (OutputCell TextAttribute) :=
  if E.IsGlyphFullWidth glyph then
    [builtCell E textAttrVariant glyph DbcsAttribute.Leading,
     builtCell E textAttrVariant glyph DbcsAttribute.Trailing]
  else
    [builtCell E textAttrVariant glyph DbcsAttribute.Single]

/-- The constructor call `cell(g, marker, spec)` of the batch conversion: the
explicit-value constructor for an attribute value, the tag-mode constructor
for a tag. -/
def constructCell (E : Externals TextAttribute)
    (textAttrVariant : TextAttribute ⊕ TextAttributeBehavior)
    (glyph : List wchar_t) (dbcsAttr : DbcsAttribute) :
    Except HRESULT (OutputCell TextAttribute) :=
  match textAttrVariant with
  | Sum.inl textAttribute => OutputCell.OutputCell_textAttribute E glyph dbcsAttr textAttribute
  | Sum.inr behavior => OutputCell.OutputCell_behavior E glyph dbcsAttr behavior

/-- Reference definition of batch conversion, in the words of the spec: for each
input glyph, in order, two cells (marker `Leading` then `Trailing`, same content,
same attribute specification) when the classifier reports full-width, else one
cell with marker `None`. -/
def BatchConvert_reference (E : Externals TextAttribute)
    (textAttrVariant : TextAttribute ⊕ TextAttributeBehavior)
    (glyphs : List (List wchar_t)) : List (Except HRESULT (OutputCell TextAttribute)) :=
  glyphs.flatMap (fun g =>
    if E.IsGlyphFullWidth g then
      [constructCell E textAttrVariant g DbcsAttribute.Leading,
       constructCell E textAttrVariant g DbcsAttribute.Trailing]
    else
      [constructCell E textAttrVariant g DbcsAttribute.Single])

/-- A cell carries the requested attribute specification: the value with tag
`Stored` for an explicit value, the tag itself otherwise. -/
def CarriesSpec (textAttrVariant : TextAttribute ⊕ TextAttributeBehavior)
    (c : OutputCell TextAttribute) : Prop :=
  match textAttrVariant with
  | Sum.inl textAttribute =>
    c._behavior = TextAttributeBehavior.Stored ∧ c._textAttribute = textAttribute
  | Sum.inr behavior => c._behavior = behavior

/-- Modelled from the spec: the read-only view of an existing cell, a projection
over the fields of the cell (the class `OutputCellView` and the code that makes
views of cells are declared outside `OutputCell.cpp`): the content `Chars()`,
the width marker, the attribute value and the attribute mode. -/
def OutputCell.viewOf (c : OutputCell TextAttribute) : OutputCellView TextAttribute where
  Chars := c.Chars
  DbcsAttr := c.DbcsAttr
  TextAttr := c._textAttribute
  TextAttrBehavior := c._behavior

/-- Cells the code can reach: built by the tag-mode, the explicit-value or the
legacy constructor, or copied from the view of a reachable cell, and then
mutated by any sequence of `SetChars` calls and of writes through `DbcsAttr()`
and `TextAttr()`. -/
inductive Reachable (E : Externals TextAttribute) : OutputCell TextAttribute → Prop where
  | OutputCell_behavior (charData : List wchar_t) (dbcsAttribute : DbcsAttribute)
      (behavior : TextAttributeBehavior) (c : OutputCell TextAttribute) :
      OutputCell.OutputCell_behavior E charData dbcsAttribute behavior = Except.ok c →
      Reachable E c
  | OutputCell_textAttribute (charData : List wchar_t) (dbcsAttribute : DbcsAttribute)
      (textAttribute : TextAttribute) (c : OutputCell TextAttribute) :
      OutputCell.OutputCell_textAttribute E charData dbcsAttribute textAttribute = Except.ok c →
      Reachable E c
  | OutputCell_charInfo (charInfo : CHAR_INFO) :
      Reachable E (OutputCell.OutputCell_charInfo E charInfo)
  | OutputCell_view (src c : OutputCell TextAttribute) :
      Reachable E src → OutputCell.OutputCell_view E src.viewOf = some c → Reachable E c
  | SetChars (c : OutputCell TextAttribute) (chars : List wchar_t) :
      Reachable E c → Reachable E (c.SetChars E chars)
  | DbcsAttr_assign (c : OutputCell TextAttribute) (d : DbcsAttribute) :
      Reachable E c → Reachable E (c.DbcsAttr_assign d)
  | TextAttr_assign (c c2 : OutputCell TextAttribute) (t : TextAttribute) :
      Reachable E c → c.TextAttr_assign t = Except.ok c2 → Reachable E c2

/-- Cells as one of the four construction paths leaves them: the tag-mode
constructor, the explicit-value constructor, the legacy record, or the copy of
the view of a reachable cell. -/
inductive BuiltByConstructor (E : Externals TextAttribute) :
    OutputCell TextAttribute → Prop where
  | OutputCell_behavior (charData : List wchar_t) (dbcsAttribute : DbcsAttribute)
      (behavior : TextAttributeBehavior) (c : OutputCell TextAttribute) :
      OutputCell.OutputCell_behavior E charData dbcsAttribute behavior = Except.ok c →
      BuiltByConstructor E c
  | OutputCell_textAttribute (charData : List wchar_t) (dbcsAttribute : DbcsAttribute)
      (textAttribute : TextAttribute) (c : OutputCell TextAttribute) :
      OutputCell.OutputCell_textAttribute E charData dbcsAttribute textAttribute = Except.ok c →
      BuiltByConstructor E c
  | OutputCell_charInfo (charInfo : CHAR_INFO) :
      BuiltByConstructor E (OutputCell.OutputCell_charInfo E charInfo)
  | OutputCell_view (src c : OutputCell TextAttribute) :
      Reachable E src → OutputCell.OutputCell_view E src.viewOf = some c →
      BuiltByConstructor E c

/-- Storage is canonical: either the inline unit is in use, or the unit sequence
has at least two units and the inline unit is `UNICODE_INVALID`. -/
def CanonicalStorage (E : Externals TextAttribute) (c : OutputCell TextAttribute) : Prop :=
  c._charData = [] ∨ (c._singleChar = E.UNICODE_INVALID ∧ 2 ≤ c._charData.length)

/-- A cell sequence is well paired: a `Leading` cell is directly followed by a
`Trailing` cell with the same content, and no `Trailing` cell stands without the
`Leading` cell before it. -/
def WellPaired : List (OutputCell TextAttribute) → Prop
  | [] => True
  | [c] => c._dbcsAttribute = DbcsAttribute.Single
  | c :: c2 :: rest =>
    (c._dbcsAttribute = DbcsAttribute.Single ∧ WellPaired (c2 :: rest)) ∨
    (c._dbcsAttribute = DbcsAttribute.Leading ∧ c2._dbcsAttribute = DbcsAttribute.Trailing ∧
      c2.Chars = c.Chars ∧ WellPaired rest)

/-- Cells built by one of the four constructors, before any mutation. -/
inductive Constructed (E : Externals TextAttribute) : OutputCell TextAttribute → Prop where
  | OutputCell_behavior (charData : List wchar_t) (dbcsAttribute : DbcsAttribute)
      (behavior : TextAttributeBehavior) (c : OutputCell TextAttribute) :
      OutputCell.OutputCell_behavior E charData dbcsAttribute behavior = Except.ok c →
      Constructed E c
  | OutputCell_textAttribute (charData : List wchar_t) (dbcsAttribute : DbcsAttribute)
      (textAttribute : TextAttribute) (c : OutputCell TextAttribute) :
      OutputCell.OutputCell_textAttribute E charData dbcsAttribute textAttribute = Except.ok c →
      Constructed E c
  | OutputCell_charInfo (charInfo : CHAR_INFO) :
      Constructed E (OutputCell.OutputCell_charInfo E charInfo)
  | OutputCell_view (cell : OutputCellView TextAttribute) (c : OutputCell TextAttribute) :
      OutputCell.OutputCell_view E cell = some c → Constructed E c

/-- Cells obtained from a successful construction followed by any sequence of
`SetChars` calls (with any view, the empty one included) and of writes through
`DbcsAttr()` and `TextAttr()`. -/
inductive Obtainable (E : Externals TextAttribute) : OutputCell TextAttribute → Prop where
  | construct (c : OutputCell TextAttribute) : Constructed E c → Obtainable E c
  | SetChars (c : OutputCell TextAttribute) (chars : List wchar_t) :
      Obtainable E c → Obtainable E (c.SetChars E chars)
  | DbcsAttr_assign (c : OutputCell TextAttribute) (d : DbcsAttribute) :
      Obtainable E c → Obtainable E (c.DbcsAttr_assign d)
  | TextAttr_assign (c c2 : OutputCell TextAttribute) (t : TextAttribute) :
      Obtainable E c → c.TextAttr_assign t = Except.ok c2 → Obtainable E c2

/-- The width marker the legacy mapping rule assigns to an attribute word:
`Leading` when the leading-half flag is set, else `Trailing` when the
trailing-half flag is set, else the standalone marker. -/
def legacyMarker (attributes : WORD) : DbcsAttribute :=
  if WI_IsFlagSet attributes COMMON_LVB_LEADING_BYTE then DbcsAttribute.Leading
  else if WI_IsFlagSet attributes COMMON_LVB_TRAILING_BYTE then DbcsAttribute.Trailing
  else DbcsAttribute.Single

/-! ## Storage lemmas -/

section Lemmas

variable (E : Externals TextAttribute)

theorem setFromStringView_dbcsAttribute (self : OutputCell TextAttribute) (view : List wchar_t) :
    (self._setFromStringView E view)._dbcsAttribute = self._dbcsAttribute := by
  unfold OutputCell._setFromStringView
  split <;> rfl

theorem setFromStringView_textAttribute (self : OutputCell TextAttribute) (view : List wchar_t) :
    (self._setFromStringView E view)._textAttribute = self._textAttribute := by
  unfold OutputCell._setFromStringView
  split <;> rfl

theorem setFromStringView_behavior (self : OutputCell TextAttribute) (view : List wchar_t) :
    (self._setFromStringView E view)._behavior = self._behavior := by
  unfold OutputCell._setFromStringView
  split <;> rfl

/-- A one-unit view is stored inline and leaves the unit sequence as it was. -/
theorem setFromStringView_one (self : OutputCell TextAttribute) (u : wchar_t) :
    (self._setFromStringView E [u])._singleChar = u ∧
    (self._setFromStringView E [u])._charData = self._charData := by
  simp [OutputCell._setFromStringView]

/-- A view that does not have exactly one unit is stored as the unit sequence and
the inline unit becomes `UNICODE_INVALID`. -/
theorem setFromStringView_other (self : OutputCell TextAttribute) (view : List wchar_t)
    (h : view.length ≠ 1) :
    (self._setFromStringView E view)._singleChar = E.UNICODE_INVALID ∧
    (self._setFromStringView E view)._charData = view := by
  simp [OutputCell._setFromStringView, h]

/-- Storing a non-empty view into a cell whose unit sequence is empty makes
`Chars` return that view. -/
theorem Chars_setFromStringView_fresh (self : OutputCell TextAttribute) (view : List wchar_t)
    (hself : self._charData = []) (hview : view ≠ []) :
    (self._setFromStringView E view).Chars = view := by
  match view, hview with
  | [u], _ =>
    have h := setFromStringView_one E self u
    simp [OutputCell.Chars, OutputCell._useSingle, h.1, h.2, hself]
  | u :: w :: rest, _ =>
    have h := setFromStringView_other E self (u :: w :: rest) (by simp)
    simp [OutputCell.Chars, OutputCell._useSingle, h.2]

/-- Storing a view of two or more units makes `Chars` return that view, whatever
the cell held before. -/
theorem Chars_setFromStringView_multi (self : OutputCell TextAttribute) (view : List wchar_t)
    (hview : 2 ≤ view.length) :
    (self._setFromStringView E view).Chars = view := by
  have h := setFromStringView_other E self view (by omega)
  have hne : view ≠ [] := by
    intro h0
    simp [h0] at hview
  simp [OutputCell.Chars, OutputCell._useSingle, h.2, hne]

/-- Storing a one-unit view into a cell that holds a unit sequence leaves `Chars`
returning the old unit sequence. -/
theorem Chars_setFromStringView_one_over_multi (self : OutputCell TextAttribute) (u : wchar_t)
    (hself : self._charData ≠ []) :
    (self._setFromStringView E [u]).Chars = self._charData := by
  have h := setFromStringView_one E self u
  simp [OutputCell.Chars, OutputCell._useSingle, h.2, hself]

/-- The cell `_setFromOutputCellView` leaves behind depends on the cell it starts
from only through the unit sequence: every other member is overwritten. -/
theorem setFromOutputCellView_overwrites (self self2 : OutputCell TextAttribute)
    (cell : OutputCellView TextAttribute) (h : self._charData = self2._charData) :
    self._setFromOutputCellView E cell = self2._setFromOutputCellView E cell := by
  unfold OutputCell._setFromOutputCellView
  simp only [h]

/-- The cell `_setFromCharInfo` leaves behind does not depend on the tag the cell
had before: the tag is overwritten with `Stored`. -/
theorem setFromCharInfo_overwrites_behavior (self : OutputCell TextAttribute)
    (b : TextAttributeBehavior) (charInfo : CHAR_INFO) :
    OutputCell._setFromCharInfo E { self with _behavior := b } charInfo =
      self._setFromCharInfo E charInfo := by
  unfold OutputCell._setFromCharInfo
  dsimp only
  split_ifs <;> rfl

theorem OutputCell_textAttribute_ok (charData : List wchar_t) (d : DbcsAttribute)
    (t : TextAttribute) (h : charData ≠ []) :
    OutputCell.OutputCell_textAttribute E charData d t =
      Except.ok (builtCell E (Sum.inl t) charData d) := by
  simp [OutputCell.OutputCell_textAttribute, builtCell, h]

theorem OutputCell_behavior_ok (charData : List wchar_t) (d : DbcsAttribute)
    (h : charData ≠ []) :
    OutputCell.OutputCell_behavior E charData d TextAttributeBehavior.Current =
      Except.ok (builtCell E (Sum.inr TextAttributeBehavior.Current) charData d) := by
  simp [OutputCell.OutputCell_behavior, OutputCell._setFromBehavior, builtCell, h]

theorem builtCell_Chars (v : TextAttribute ⊕ TextAttributeBehavior) (glyph : List wchar_t)
    (d : DbcsAttribute) (h : glyph ≠ []) : (builtCell E v glyph d).Chars = glyph := by
  cases v <;> exact Chars_setFromStringView_fresh E _ glyph rfl h

theorem builtCell_dbcsAttribute (v : TextAttribute ⊕ TextAttributeBehavior)
    (glyph : List wchar_t) (d : DbcsAttribute) : (builtCell E v glyph d)._dbcsAttribute = d := by
  cases v <;> simp [builtCell, setFromStringView_dbcsAttribute]

theorem builtCell_CarriesSpec (v : TextAttribute ⊕ TextAttributeBehavior)
    (glyph : List wchar_t) (d : DbcsAttribute) : CarriesSpec v (builtCell E v glyph d) := by
  cases v <;>
    simp [builtCell, CarriesSpec, setFromStringView_behavior, setFromStringView_textAttribute]

end Lemmas

/-! ## Content replacement, construction and the attribute guard -/

/-- C1: on the cell built from the two-unit content `ab` by the explicit-value
constructor, `SetChars` with the one-unit view `x` stores `x` inline but leaves
the unit sequence in place, so `Chars()` still returns `ab` and not `x`. -/
theorem C1_SetChars_one_unit_over_multi_unit_keeps_old_content :
    OutputCell.OutputCell_textAttribute sampleExternals [0x61, 0x62] DbcsAttribute.Single 7 =
      Except.ok sampleTwoUnitCell ∧
    sampleTwoUnitCell.Chars = [0x61, 0x62] ∧
    (sampleTwoUnitCell.SetChars sampleExternals [0x78])._singleChar = 0x78 ∧
    (sampleTwoUnitCell.SetChars sampleExternals [0x78])._charData = [0x61, 0x62] ∧
    (sampleTwoUnitCell.SetChars sampleExternals [0x78]).Chars = [0x61, 0x62] ∧
    (sampleTwoUnitCell.SetChars sampleExternals [0x78]).Chars ≠ [0x78] := by
  refine ⟨rfl, rfl, rfl, rfl, rfl, ?_⟩
  decide

/-- C3: for every non-empty code-unit sequence `s`, every width marker and every
attribute specification (the `Current` tag through the tag-mode constructor, an
explicit value through the explicit-value constructor), construction succeeds
and the constructed cell returns `s` from `Chars()`. -/
theorem C3_construction_storage_transparency (E : Externals TextAttribute)
    (s : List wchar_t) (d : DbcsAttribute) (hs : s ≠ []) :
    (∃ c, OutputCell.OutputCell_behavior E s d TextAttributeBehavior.Current = Except.ok c ∧
      c.Chars = s) ∧
    (∀ v : TextAttribute, ∃ c, OutputCell.OutputCell_textAttribute E s d v = Except.ok c ∧
      c.Chars = s) :=
  ⟨⟨_, OutputCell_behavior_ok E s d hs, builtCell_Chars E _ s d hs⟩,
   fun v => ⟨_, OutputCell_textAttribute_ok E s d v hs, builtCell_Chars E _ s d hs⟩⟩

theorem C3_construction_storage_transparency_witness :
    ([0x62, 0x301] : List wchar_t) ≠ [] ∧
    ((∃ c, OutputCell.OutputCell_behavior sampleExternals [0x62, 0x301] DbcsAttribute.Leading
        TextAttributeBehavior.Current = Except.ok c ∧ c.Chars = [0x62, 0x301]) ∧
     (∀ v : Nat, ∃ c, OutputCell.OutputCell_textAttribute sampleExternals [0x62, 0x301]
        DbcsAttribute.Leading v = Except.ok c ∧ c.Chars = [0x62, 0x301])) :=
  ⟨by decide,
   C3_construction_storage_transparency sampleExternals [0x62, 0x301] DbcsAttribute.Leading
     (by decide)⟩

/-- C9: `TextAttr()` fails with `E_INVALIDARG` exactly when the tag of the cell is
`Current`, and yields the stored value otherwise. Every cell built by the
tag-mode constructor with `Current` makes it fail (and such a cell is built from
every non-empty content); every cell built by the explicit-value constructor
with value `v` makes it yield `v` (and such a cell is built from every non-empty
content); the cell built from a legacy record makes it yield the stored value. -/
theorem C9_TextAttr_fails_iff_Current (E : Externals TextAttribute) :
    (∀ c : OutputCell TextAttribute,
      (c.TextAttr = Except.error E_INVALIDARG ↔ c._behavior = TextAttributeBehavior.Current) ∧
      (c._behavior ≠ TextAttributeBehavior.Current → c.TextAttr = Except.ok c._textAttribute)) ∧
    (∀ (s : List wchar_t) (d : DbcsAttribute) (c : OutputCell TextAttribute),
      OutputCell.OutputCell_behavior E s d TextAttributeBehavior.Current = Except.ok c →
      c.TextAttr = Except.error E_INVALIDARG) ∧
    (∀ (s : List wchar_t) (d : DbcsAttribute), s ≠ [] →
      ∃ c, OutputCell.OutputCell_behavior E s d TextAttributeBehavior.Current = Except.ok c ∧
        c.TextAttr = Except.error E_INVALIDARG) ∧
    (∀ (s : List wchar_t) (d : DbcsAttribute) (v : TextAttribute) (c : OutputCell TextAttribute),
      OutputCell.OutputCell_textAttribute E s d v = Except.ok c → c.TextAttr = Except.ok v) ∧
    (∀ (s : List wchar_t) (d : DbcsAttribute) (v : TextAttribute), s ≠ [] →
      ∃ c, OutputCell.OutputCell_textAttribute E s d v = Except.ok c ∧
        c.TextAttr = Except.ok v) ∧
    (∀ charInfo : CHAR_INFO,
      (OutputCell.OutputCell_charInfo E charInfo).TextAttr =
        Except.ok (OutputCell.OutputCell_charInfo E charInfo)._textAttribute ∧
      (OutputCell.OutputCell_charInfo E charInfo)._textAttribute =
        E.SetFromLegacy E.InvalidTextAttribute charInfo.Attributes) := by
  have hB : ∀ (s : List wchar_t) (d : DbcsAttribute) (c : OutputCell TextAttribute),
      OutputCell.OutputCell_behavior E s d TextAttributeBehavior.Current = Except.ok c →
      c.TextAttr = Except.error E_INVALIDARG := by
    intro s d c h
    by_cases hs : s = []
    · simp [OutputCell.OutputCell_behavior, hs] at h
    · rw [OutputCell_behavior_ok E s d hs] at h
      cases h
      have hb := builtCell_CarriesSpec E (Sum.inr TextAttributeBehavior.Current) s d
      simp only [CarriesSpec] at hb
      simp [OutputCell.TextAttr, hb]
  have hT : ∀ (s : List wchar_t) (d : DbcsAttribute) (v : TextAttribute)
      (c : OutputCell TextAttribute),
      OutputCell.OutputCell_textAttribute E s d v = Except.ok c → c.TextAttr = Except.ok v := by
    intro s d v c h
    by_cases hs : s = []
    · simp [OutputCell.OutputCell_textAttribute, hs] at h
    · rw [OutputCell_textAttribute_ok E s d v hs] at h
      cases h
      have hb := builtCell_CarriesSpec E (Sum.inl v) s d
      simp only [CarriesSpec] at hb
      simp [OutputCell.TextAttr, hb.1, hb.2]
  refine ⟨?_, hB, ?_, hT, ?_, ?_⟩
  · intro c
    constructor
    · unfold OutputCell.TextAttr
      by_cases hc : c._behavior = TextAttributeBehavior.Current <;> simp [hc]
    · intro hc
      simp [OutputCell.TextAttr, hc]
  · intro s d hs
    exact ⟨_, OutputCell_behavior_ok E s d hs, hB s d _ (OutputCell_behavior_ok E s d hs)⟩
  · intro s d v hs
    exact ⟨_, OutputCell_textAttribute_ok E s d v hs,
      hT s d v _ (OutputCell_textAttribute_ok E s d v hs)⟩
  · intro charInfo
    constructor
    · simp [OutputCell.TextAttr, OutputCell.OutputCell_charInfo, OutputCell._setFromCharInfo]
    · unfold OutputCell.OutputCell_charInfo OutputCell._setFromCharInfo
      dsimp only
      split
      · rfl
      · split <;> rfl

theorem C9_TextAttr_fails_iff_Current_witness :
    (∃ c, OutputCell.OutputCell_behavior sampleExternals [0x41] DbcsAttribute.Single
        TextAttributeBehavior.Current = Except.ok c ∧
      c.TextAttr = Except.error E_INVALIDARG) ∧
    (∃ c, OutputCell.OutputCell_textAttribute sampleExternals [0x41] DbcsAttribute.Single 7
        = Except.ok c ∧ c.TextAttr = Except.ok 7) :=
  ⟨(C9_TextAttr_fails_iff_Current sampleExternals).2.2.1 [0x41] DbcsAttribute.Single (by decide),
   (C9_TextAttr_fails_iff_Current sampleExternals).2.2.2.2.1 [0x41] DbcsAttribute.Single 7
     (by decide)⟩

/-- C10: for every glyph sequence, empty or not, and every width marker, the
tag-mode constructor called with the `Stored` tag throws `E_INVALIDARG`; no cell
is produced. -/
theorem C10_tag_mode_constructor_rejects_Stored (E : Externals TextAttribute)
    (s : List wchar_t) (d : DbcsAttribute) :
    OutputCell.OutputCell_behavior E s d TextAttributeBehavior.Stored =
      Except.error E_INVALIDARG := by
  unfold OutputCell.OutputCell_behavior
  by_cases hs : s = [] <;> simp [hs, OutputCell._setFromBehavior]

/-! ## Equality -/

section Equality

variable [DecidableEq TextAttribute]

/-- The comparison `operator==` is true exactly when the five data members agree. -/
theorem operator_eq_iff_members (a b : OutputCell TextAttribute) :
    OutputCell.operator_eq a b = true ↔
      a._singleChar = b._singleChar ∧ a._charData = b._charData ∧
      a._dbcsAttribute = b._dbcsAttribute ∧ a._textAttribute = b._textAttribute ∧
      a._behavior = b._behavior := by
  simp [OutputCell.operator_eq, and_assoc]

/-- Cells that compare equal agree on every observable: content, width marker,
tag and attribute value. -/
theorem operator_eq_sound (a b : OutputCell TextAttribute)
    (h : OutputCell.operator_eq a b = true) :
    a.Chars = b.Chars ∧ a.DbcsAttr = b.DbcsAttr ∧ a._behavior = b._behavior ∧
      a._textAttribute = b._textAttribute := by
  obtain ⟨h1, h2, h3, h4, h5⟩ := (operator_eq_iff_members a b).1 h
  simp [OutputCell.Chars, OutputCell._useSingle, OutputCell.DbcsAttr, h1, h2, h3, h4, h5]

end Equality

section Canonical

variable (E : Externals TextAttribute)

theorem CanonicalStorage_setFromStringView (self : OutputCell TextAttribute)
    (view : List wchar_t) (hguard : view.length = 1 → self._useSingle = true) :
    CanonicalStorage E (self._setFromStringView E view) := by
  by_cases h1 : view.length = 1
  · have hs : self._charData = [] := by
      simpa [OutputCell._useSingle] using hguard h1
    left
    obtain ⟨u, rfl⟩ := List.length_eq_one.1 h1
    rw [(setFromStringView_one E self u).2, hs]
  · have h := setFromStringView_other E self view h1
    by_cases h0 : view = []
    · left
      rw [h.2, h0]
    · right
      refine ⟨h.1, ?_⟩
      rw [h.2]
      have hpos : 0 < view.length := List.length_pos.2 h0
      omega

theorem CanonicalStorage_of_setFromOutputCellView (self c : OutputCell TextAttribute)
    (cell : OutputCellView TextAttribute) (hself : self._charData = [])
    (h : self._setFromOutputCellView E cell = some c) : CanonicalStorage E c := by
  unfold OutputCell._setFromOutputCellView at h
  dsimp only at h
  split at h
  · next hlen =>
    cases h
    right
    exact ⟨rfl, hlen⟩
  · split at h
    · cases h
      left
      exact hself
    · cases h

/-- With canonical storage the view returned by `Chars` determines both the
inline unit and the unit sequence. -/
theorem CanonicalStorage.members_of_Chars {a b : OutputCell TextAttribute}
    (ha : CanonicalStorage E a) (hb : CanonicalStorage E b) (h : a.Chars = b.Chars) :
    a._singleChar = b._singleChar ∧ a._charData = b._charData := by
  unfold OutputCell.Chars OutputCell._useSingle at h
  rcases ha with ha | ⟨ha1, ha2⟩ <;> rcases hb with hb | ⟨hb1, hb2⟩
  · simp [ha, hb] at h
    exact ⟨h, by rw [ha, hb]⟩
  · have hne : b._charData ≠ [] := by
      intro h0
      simp [h0] at hb2
    simp [ha, hne] at h
    rw [← h] at hb2
    simp at hb2
  · have hne : a._charData ≠ [] := by
      intro h0
      simp [h0] at ha2
    simp [hb, hne] at h
    rw [h] at ha2
    simp at ha2
  · have hna : a._charData ≠ [] := by
      intro h0
      simp [h0] at ha2
    have hnb : b._charData ≠ [] := by
      intro h0
      simp [h0] at hb2
    simp [hna, hnb] at h
    exact ⟨by rw [ha1, hb1], h⟩

end Canonical

/-- C2: the cell built from the two-unit content `ab` and then handed the one-unit
view `x` by `SetChars`, and the cell freshly built from `ab` with the same
marker and attribute value, agree on `Chars()`, on the width marker, on the tag
`Stored` and on the stored attribute value, and yet `operator==` is false: the
first cell keeps `x` in its inline unit next to the old unit sequence. -/
theorem C2_operator_eq_false_on_cells_with_equal_logical_fields :
    OutputCell.OutputCell_textAttribute sampleExternals [0x61, 0x62] DbcsAttribute.Single 7 =
      Except.ok sampleTwoUnitCell ∧
    (sampleTwoUnitCell.SetChars sampleExternals [0x78]).Chars = sampleTwoUnitCell.Chars ∧
    (sampleTwoUnitCell.SetChars sampleExternals [0x78]).DbcsAttr = sampleTwoUnitCell.DbcsAttr ∧
    (sampleTwoUnitCell.SetChars sampleExternals [0x78])._behavior =
      TextAttributeBehavior.Stored ∧
    sampleTwoUnitCell._behavior = TextAttributeBehavior.Stored ∧
    (sampleTwoUnitCell.SetChars sampleExternals [0x78]).TextAttr = Except.ok 7 ∧
    sampleTwoUnitCell.TextAttr = Except.ok 7 ∧
    (sampleTwoUnitCell.SetChars sampleExternals [0x78])._singleChar = 0x78 ∧
    sampleTwoUnitCell._singleChar = 0xFFFF ∧
    OutputCell.operator_eq (sampleTwoUnitCell.SetChars sampleExternals [0x78])
      sampleTwoUnitCell = false := by
  refine ⟨rfl, rfl, rfl, rfl, rfl, rfl, rfl, rfl, rfl, rfl⟩

/-! ## Batch conversion -/

section Batch

variable (E : Externals TextAttribute)

theorem constructCell_ok (v : TextAttribute ⊕ TextAttributeBehavior)
    (hv : v ≠ Sum.inr TextAttributeBehavior.Stored) (glyph : List wchar_t)
    (d : DbcsAttribute) (hg : glyph ≠ []) :
    constructCell E v glyph d = Except.ok (builtCell E v glyph d) := by
  match v, hv with
  | Sum.inl t, _ => exact OutputCell_textAttribute_ok E glyph d t hg
  | Sum.inr TextAttributeBehavior.Current, _ => exact OutputCell_behavior_ok E glyph d hg
  | Sum.inr TextAttributeBehavior.Stored, hv => exact absurd rfl hv

theorem constructorDispatch_ok (v : TextAttribute ⊕ TextAttributeBehavior)
    (hv : v ≠ Sum.inr TextAttributeBehavior.Stored)
    (cells : List (OutputCell TextAttribute)) (glyph : List wchar_t)
    (d : DbcsAttribute) (hg : glyph ≠ []) :
    OutputCell.constructorDispatch E v cells glyph d =
      Except.ok (cells ++ [builtCell E v glyph d]) := by
  match v, hv with
  | Sum.inl t, _ =>
    simp only [OutputCell.constructorDispatch, OutputCell_textAttribute_ok E glyph d t hg]
  | Sum.inr TextAttributeBehavior.Current, _ =>
    simp only [OutputCell.constructorDispatch, OutputCell_behavior_ok E glyph d hg]
  | Sum.inr TextAttributeBehavior.Stored, hv => exact absurd rfl hv

/-- The loop appends, glyph by glyph, the cells of `expandGlyph`. -/
theorem fromUtf16_loop_ok (v : TextAttribute ⊕ TextAttributeBehavior)
    (hv : v ≠ Sum.inr TextAttributeBehavior.Stored) (glyphs : List (List wchar_t))
    (hne : ∀ g ∈ glyphs, g ≠ []) (cells : List (OutputCell TextAttribute)) :
    OutputCell._fromUtf16_loop E v glyphs cells =
      Except.ok (cells ++ glyphs.flatMap (expandGlyph E v)) := by
  induction glyphs generalizing cells with
  | nil => simp [OutputCell._fromUtf16_loop]
  | cons g rest ih =>
    have hg : g ≠ [] := hne g (List.mem_cons_self g rest)
    have hrest : ∀ g2 ∈ rest, g2 ≠ [] := fun g2 h2 => hne g2 (List.mem_cons_of_mem g h2)
    unfold OutputCell._fromUtf16_loop
    by_cases hw : E.IsGlyphFullWidth g = true
    · simp only [hw, if_true, constructorDispatch_ok E v hv _ g _ hg]
      rw [ih hrest]
      simp [expandGlyph, hw, DbcsAttribute.SetLeading, DbcsAttribute.SetTrailing]
    · simp only [hw, constructorDispatch_ok E v hv _ g _ hg, Bool.false_eq_true, if_false]
      rw [ih hrest]
      simp [expandGlyph, hw, DbcsAttribute.default]

theorem fromUtf16_ok (v : TextAttribute ⊕ TextAttributeBehavior)
    (hv : v ≠ Sum.inr TextAttributeBehavior.Stored) (glyphs : List (List wchar_t))
    (hne : ∀ g ∈ glyphs, g ≠ []) :
    OutputCell._fromUtf16 E glyphs v = Except.ok (glyphs.flatMap (expandGlyph E v)) := by
  unfold OutputCell._fromUtf16
  rw [fromUtf16_loop_ok E v hv glyphs hne []]
  simp

theorem expand_map_ok (v : TextAttribute ⊕ TextAttributeBehavior)
    (hv : v ≠ Sum.inr TextAttributeBehavior.Stored) (glyphs : List (List wchar_t))
    (hne : ∀ g ∈ glyphs, g ≠ []) :
    (glyphs.flatMap (expandGlyph E v)).map Except.ok = BatchConvert_reference E v glyphs := by
  induction glyphs with
  | nil => simp [BatchConvert_reference]
  | cons g rest ih =>
    have hg : g ≠ [] := hne g (List.mem_cons_self g rest)
    have hrest : ∀ g2 ∈ rest, g2 ≠ [] := fun g2 h2 => hne g2 (List.mem_cons_of_mem g h2)
    have ih2 := ih hrest
    unfold BatchConvert_reference at ih2 ⊢
    rw [List.flatMap_cons, List.flatMap_cons, List.map_append, ih2]
    congr 1
    by_cases hw : E.IsGlyphFullWidth g = true
    · simp [expandGlyph, hw, constructCell_ok E v hv g _ hg]
    · simp [expandGlyph, hw, constructCell_ok E v hv g _ hg]

theorem expand_contents (v : TextAttribute ⊕ TextAttributeBehavior)
    (glyphs : List (List wchar_t)) (hne : ∀ g ∈ glyphs, g ≠ []) :
    ((glyphs.flatMap (expandGlyph E v)).filter
      (fun c => decide (c.DbcsAttr ≠ DbcsAttribute.Trailing))).map OutputCell.Chars = glyphs := by
  induction glyphs with
  | nil => simp
  | cons g rest ih =>
    have hg : g ≠ [] := hne g (List.mem_cons_self g rest)
    have hrest : ∀ g2 ∈ rest, g2 ≠ [] := fun g2 h2 => hne g2 (List.mem_cons_of_mem g h2)
    rw [List.flatMap_cons, List.filter_append, List.map_append, ih hrest]
    by_cases hw : E.IsGlyphFullWidth g = true
    · simp [expandGlyph, hw, OutputCell.DbcsAttr, builtCell_dbcsAttribute, List.filter,
        builtCell_Chars E v g _ hg]
    · simp [expandGlyph, hw, OutputCell.DbcsAttr, builtCell_dbcsAttribute, List.filter,
        builtCell_Chars E v g _ hg]

theorem expand_CarriesSpec (v : TextAttribute ⊕ TextAttributeBehavior)
    (glyphs : List (List wchar_t)) :
    ∀ c ∈ glyphs.flatMap (expandGlyph E v), CarriesSpec v c := by
  intro c hc
  obtain ⟨g, _, hcg⟩ := List.mem_flatMap.1 hc
  unfold expandGlyph at hcg
  split at hcg
  · simp only [List.mem_cons, List.mem_singleton, List.not_mem_nil, or_false] at hcg
    rcases hcg with rfl | rfl <;> exact builtCell_CarriesSpec E v g _
  · simp only [List.mem_singleton] at hcg
    rw [hcg]
    exact builtCell_CarriesSpec E v g _

theorem expand_length (v : TextAttribute ⊕ TextAttributeBehavior)
    (glyphs : List (List wchar_t)) :
    (glyphs.flatMap (expandGlyph E v)).length =
      glyphs.length + glyphs.countP E.IsGlyphFullWidth := by
  induction glyphs with
  | nil => simp
  | cons g rest ih =>
    rw [List.flatMap_cons, List.length_append, ih, List.countP_cons, List.length_cons]
    by_cases hw : E.IsGlyphFullWidth g = true
    · simp [expandGlyph, hw]
      omega
    · simp [expandGlyph, hw]
      omega

theorem WellPaired_cons_Single (c : OutputCell TextAttribute)
    (rest : List (OutputCell TextAttribute))
    (hc : c._dbcsAttribute = DbcsAttribute.Single) (hrest : WellPaired rest) :
    WellPaired (c :: rest) := by
  cases rest with
  | nil => simpa [WellPaired] using hc
  | cons c2 rest2 =>
    rw [WellPaired]
    exact Or.inl ⟨hc, hrest⟩

theorem expand_WellPaired (v : TextAttribute ⊕ TextAttributeBehavior)
    (glyphs : List (List wchar_t)) : WellPaired (glyphs.flatMap (expandGlyph E v)) := by
  induction glyphs with
  | nil => simp [WellPaired]
  | cons g rest ih =>
    rw [List.flatMap_cons]
    by_cases hw : E.IsGlyphFullWidth g = true
    · simp only [expandGlyph, hw, if_true, List.cons_append, List.nil_append]
      rw [WellPaired]
      refine Or.inr ⟨builtCell_dbcsAttribute E v g _, builtCell_dbcsAttribute E v g _, ?_, ih⟩
      cases v <;> simp [builtCell, OutputCell.Chars, OutputCell._useSingle,
        OutputCell._setFromStringView] <;> split <;> rfl
    · simp only [expandGlyph, hw, List.cons_append, List.nil_append]
      exact WellPaired_cons_Single _ _ (builtCell_dbcsAttribute E v g _) ih

end Batch

/-- In a well-paired sequence, read by position: a `Leading` cell has a `Trailing`
cell with the same content right after it, and a `Trailing` cell has a `Leading`
cell with the same content right before it. -/
theorem WellPaired.by_position (l : List (OutputCell TextAttribute)) (h : WellPaired l) :
    (∀ (i : Nat) (c : OutputCell TextAttribute), l[i]? = some c →
      c._dbcsAttribute = DbcsAttribute.Leading →
      ∃ c2, l[i + 1]? = some c2 ∧ c2._dbcsAttribute = DbcsAttribute.Trailing ∧
        c2.Chars = c.Chars) ∧
    (∀ (i : Nat) (c : OutputCell TextAttribute), l[i]? = some c →
      c._dbcsAttribute = DbcsAttribute.Trailing →
      ∃ (j : Nat) (c0 : OutputCell TextAttribute), i = j + 1 ∧ l[j]? = some c0 ∧
        c0._dbcsAttribute = DbcsAttribute.Leading ∧ c0.Chars = c.Chars) := by
  induction l using WellPaired.induct with
  | case1 => simp
  | case2 c =>
    have hc : c._dbcsAttribute = DbcsAttribute.Single := by simpa [WellPaired] using h
    constructor
    · intro i c1 hi hL
      cases i with
      | zero =>
        simp only [List.getElem?_cons_zero, Option.some.injEq] at hi
        rw [← hi, hc] at hL
        cases hL
      | succ k => simp at hi
    · intro i c1 hi hT
      cases i with
      | zero =>
        simp only [List.getElem?_cons_zero, Option.some.injEq] at hi
        rw [← hi, hc] at hT
        cases hT
      | succ k => simp at hi
  | case3 c c2 rest ih1 ih2 =>
    rw [WellPaired] at h
    rcases h with ⟨hc, hw⟩ | ⟨hc, hc2, hch, hw⟩
    · obtain ⟨ihL, ihT⟩ := ih1 hw
      constructor
      · intro i c1 hi hL
        cases i with
        | zero =>
          simp only [List.getElem?_cons_zero, Option.some.injEq] at hi
          rw [← hi, hc] at hL
          cases hL
        | succ k =>
          rw [List.getElem?_cons_succ] at hi
          rw [List.getElem?_cons_succ]
          exact ihL k c1 hi hL
      · intro i c1 hi hT
        cases i with
        | zero =>
          simp only [List.getElem?_cons_zero, Option.some.injEq] at hi
          rw [← hi, hc] at hT
          cases hT
        | succ k =>
          rw [List.getElem?_cons_succ] at hi
          obtain ⟨j, c0, hj, hj0, hL0, hch0⟩ := ihT k c1 hi hT
          refine ⟨j + 1, c0, by omega, ?_, hL0, hch0⟩
          rw [List.getElem?_cons_succ]
          exact hj0
    · obtain ⟨ihL, ihT⟩ := ih2 hw
      constructor
      · intro i c1 hi hL
        match i, hi with
        | 0, hi =>
          simp only [List.getElem?_cons_zero, Option.some.injEq] at hi
          refine ⟨c2, by simp, hc2, ?_⟩
          rw [← hi]
          exact hch
        | 1, hi =>
          simp only [List.getElem?_cons_succ, List.getElem?_cons_zero, Option.some.injEq] at hi
          rw [← hi, hc2] at hL
          cases hL
        | k + 2, hi =>
          simp only [List.getElem?_cons_succ] at hi
          simp only [List.getElem?_cons_succ]
          exact ihL k c1 hi hL
      · intro i c1 hi hT
        match i, hi with
        | 0, hi =>
          simp only [List.getElem?_cons_zero, Option.some.injEq] at hi
          rw [← hi, hc] at hT
          cases hT
        | 1, hi =>
          simp only [List.getElem?_cons_succ, List.getElem?_cons_zero, Option.some.injEq] at hi
          refine ⟨0, c, rfl, by simp, hc, ?_⟩
          rw [← hi]
          exact hch.symm
        | k + 2, hi =>
          simp only [List.getElem?_cons_succ] at hi
          obtain ⟨j, c0, hj, hj0, hL0, hch0⟩ := ihT k c1 hi hT
          refine ⟨j + 2, c0, by omega, ?_, hL0, hch0⟩
          simp only [List.getElem?_cons_succ]
          exact hj0

/-- C4: for every width classifier, every list of non-empty glyphs and every
uniform attribute specification (an explicit value, or the `Current` tag),
`_fromUtf16` returns a cell sequence that is, cell for cell, the in-order
concatenation over the input glyphs of the constructor calls
`[cell(g, Leading, spec), cell(g, Trailing, spec)]` for a full-width glyph and
`[cell(g, None, spec)]` otherwise; the contents of the output cells whose marker
is not `Trailing`, read in order, are the input glyph list; every output cell
carries the requested attribute specification; `FromUtf16` is the case of the
`Current` tag. -/
theorem C4_fromUtf16_equals_reference (E : Externals TextAttribute)
    (v : TextAttribute ⊕ TextAttributeBehavior)
    (hv : v ≠ Sum.inr TextAttributeBehavior.Stored) (glyphs : List (List wchar_t))
    (hne : ∀ g ∈ glyphs, g ≠ []) :
    ∃ out, OutputCell._fromUtf16 E glyphs v = Except.ok out ∧
      out.map Except.ok = BatchConvert_reference E v glyphs ∧
      (out.filter (fun c => decide (c.DbcsAttr ≠ DbcsAttribute.Trailing))).map OutputCell.Chars
        = glyphs ∧
      (∀ c ∈ out, CarriesSpec v c) ∧
      (v = Sum.inr TextAttributeBehavior.Current → OutputCell.FromUtf16 E glyphs = Except.ok out) :=
  ⟨glyphs.flatMap (expandGlyph E v), fromUtf16_ok E v hv glyphs hne,
   expand_map_ok E v hv glyphs hne, expand_contents E v glyphs hne,
   expand_CarriesSpec E v glyphs,
   fun h => by
     unfold OutputCell.FromUtf16
     rw [← h]
     exact fromUtf16_ok E v hv glyphs hne⟩

theorem C4_fromUtf16_equals_reference_witness :
    ∃ out, OutputCell._fromUtf16 sampleExternals [[0x61], [0x3042], [0x62, 0x301]]
        (Sum.inr TextAttributeBehavior.Current) = Except.ok out ∧
      out.map Except.ok =
        BatchConvert_reference sampleExternals (Sum.inr TextAttributeBehavior.Current)
          [[0x61], [0x3042], [0x62, 0x301]] ∧
      (out.filter (fun c => decide (c.DbcsAttr ≠ DbcsAttribute.Trailing))).map OutputCell.Chars
        = [[0x61], [0x3042], [0x62, 0x301]] ∧
      (∀ c ∈ out, CarriesSpec (Sum.inr TextAttributeBehavior.Current) c) ∧
      ((Sum.inr TextAttributeBehavior.Current : Nat ⊕ TextAttributeBehavior) =
          Sum.inr TextAttributeBehavior.Current →
        OutputCell.FromUtf16 sampleExternals [[0x61], [0x3042], [0x62, 0x301]] = Except.ok out) :=
  C4_fromUtf16_equals_reference sampleExternals (Sum.inr TextAttributeBehavior.Current) (by simp)
    [[0x61], [0x3042], [0x62, 0x301]] (by decide)

/-- C5: for every non-empty glyph `g` that the width classifier reports as
full-width, batch conversion of `[g]` (with an explicit value or the `Current`
tag) returns exactly two cells, the first marked `Leading`, the second marked
`Trailing`, both with `Chars()` equal to `g`. -/
theorem C5_width_expansion (E : Externals TextAttribute)
    (v : TextAttribute ⊕ TextAttributeBehavior)
    (hv : v ≠ Sum.inr TextAttributeBehavior.Stored) (g : List wchar_t)
    (hg : g ≠ []) (hw : E.IsGlyphFullWidth g = true) :
    ∃ c1 c2, OutputCell._fromUtf16 E [g] v = Except.ok [c1, c2] ∧
      c1.DbcsAttr = DbcsAttribute.Leading ∧ c2.DbcsAttr = DbcsAttribute.Trailing ∧
      c1.Chars = g ∧ c2.Chars = g := by
  refine ⟨builtCell E v g DbcsAttribute.Leading, builtCell E v g DbcsAttribute.Trailing,
    ?_, builtCell_dbcsAttribute E v g _, builtCell_dbcsAttribute E v g _,
    builtCell_Chars E v g _ hg, builtCell_Chars E v g _ hg⟩
  rw [fromUtf16_ok E v hv [g] (by simpa using hg)]
  simp [expandGlyph, hw]

theorem C5_width_expansion_witness :
    ∃ c1 c2, OutputCell._fromUtf16 sampleExternals [[0x3042]]
        (Sum.inr TextAttributeBehavior.Current) = Except.ok [c1, c2] ∧
      c1.DbcsAttr = DbcsAttribute.Leading ∧ c2.DbcsAttr = DbcsAttribute.Trailing ∧
      c1.Chars = [0x3042] ∧ c2.Chars = [0x3042] :=
  C5_width_expansion sampleExternals (Sum.inr TextAttributeBehavior.Current) (by simp)
    [0x3042] (by decide) (by decide)

/-- C6: for every non-empty glyph `g` that the width classifier reports as not
full-width, batch conversion of `[g]` (with an explicit value or the `Current`
tag) returns exactly one cell, whose width marker is the standalone marker and
whose `Chars()` equals `g`. -/
theorem C6_narrow_passthrough (E : Externals TextAttribute)
    (v : TextAttribute ⊕ TextAttributeBehavior)
    (hv : v ≠ Sum.inr TextAttributeBehavior.Stored) (g : List wchar_t)
    (hg : g ≠ []) (hw : E.IsGlyphFullWidth g = false) :
    ∃ c, OutputCell._fromUtf16 E [g] v = Except.ok [c] ∧
      c.DbcsAttr = DbcsAttribute.Single ∧ c.Chars = g := by
  refine ⟨builtCell E v g DbcsAttribute.Single, ?_, builtCell_dbcsAttribute E v g _,
    builtCell_Chars E v g _ hg⟩
  rw [fromUtf16_ok E v hv [g] (by simpa using hg)]
  simp [expandGlyph, hw]

theorem C6_narrow_passthrough_witness :
    ∃ c, OutputCell._fromUtf16 sampleExternals [[0x62, 0x301]]
        (Sum.inr TextAttributeBehavior.Current) = Except.ok [c] ∧
      c.DbcsAttr = DbcsAttribute.Single ∧ c.Chars = [0x62, 0x301] :=
  C6_narrow_passthrough sampleExternals (Sum.inr TextAttributeBehavior.Current) (by simp)
    [0x62, 0x301] (by decide) (by decide)

/-- C7: for every width classifier and every list of non-empty glyphs, `FromUtf16`
returns a cell sequence whose length is the number of input glyphs plus the
number of input glyphs classified as full-width; so does batch conversion with
a uniform explicit attribute value. -/
theorem C7_FromUtf16_length (E : Externals TextAttribute) (glyphs : List (List wchar_t))
    (hne : ∀ g ∈ glyphs, g ≠ []) :
    (∃ out, OutputCell.FromUtf16 E glyphs = Except.ok out ∧
      out.length = glyphs.length + glyphs.countP E.IsGlyphFullWidth) ∧
    (∀ t : TextAttribute, ∃ out, OutputCell._fromUtf16 E glyphs (Sum.inl t) = Except.ok out ∧
      out.length = glyphs.length + glyphs.countP E.IsGlyphFullWidth) :=
  ⟨⟨_, fromUtf16_ok E (Sum.inr TextAttributeBehavior.Current) (by simp) glyphs hne,
     expand_length E _ glyphs⟩,
   fun t => ⟨_, fromUtf16_ok E (Sum.inl t) (by simp) glyphs hne, expand_length E _ glyphs⟩⟩

theorem C7_FromUtf16_length_witness :
    (∃ out, OutputCell.FromUtf16 sampleExternals [[0x61], [0x3042], [0x62, 0x301]]
        = Except.ok out ∧
      out.length = [[0x61], [0x3042], [0x62, 0x301]].length +
        [[0x61], [0x3042], [0x62, 0x301]].countP sampleExternals.IsGlyphFullWidth) ∧
    (∀ t : Nat, ∃ out, OutputCell._fromUtf16 sampleExternals [[0x61], [0x3042], [0x62, 0x301]]
        (Sum.inl t) = Except.ok out ∧
      out.length = [[0x61], [0x3042], [0x62, 0x301]].length +
        [[0x61], [0x3042], [0x62, 0x301]].countP sampleExternals.IsGlyphFullWidth) :=
  C7_FromUtf16_length sampleExternals [[0x61], [0x3042], [0x62, 0x301]] (by decide)

/-- C8: for every width classifier and every list of non-empty glyphs, in the cell
sequence returned by batch conversion (with an explicit value or the `Current`
tag) every cell marked `Leading` is immediately followed by a cell marked
`Trailing` with the same content, every cell marked `Trailing` is immediately
preceded by a cell marked `Leading` with the same content, the last cell is not
marked `Leading` and the first cell is not marked `Trailing`. -/
theorem C8_leading_trailing_pairing (E : Externals TextAttribute)
    (v : TextAttribute ⊕ TextAttributeBehavior)
    (hv : v ≠ Sum.inr TextAttributeBehavior.Stored) (glyphs : List (List wchar_t))
    (hne : ∀ g ∈ glyphs, g ≠ []) :
    ∃ out, OutputCell._fromUtf16 E glyphs v = Except.ok out ∧
      (∀ (i : Nat) (c : OutputCell TextAttribute), out[i]? = some c →
        c.DbcsAttr = DbcsAttribute.Leading →
        ∃ c2, out[i + 1]? = some c2 ∧ c2.DbcsAttr = DbcsAttribute.Trailing ∧
          c2.Chars = c.Chars) ∧
      (∀ (i : Nat) (c : OutputCell TextAttribute), out[i]? = some c →
        c.DbcsAttr = DbcsAttribute.Trailing →
        ∃ (j : Nat) (c0 : OutputCell TextAttribute), i = j + 1 ∧ out[j]? = some c0 ∧
          c0.DbcsAttr = DbcsAttribute.Leading ∧ c0.Chars = c.Chars) ∧
      (∀ c, out.getLast? = some c → c.DbcsAttr ≠ DbcsAttribute.Leading) ∧
      (∀ c, out.head? = some c → c.DbcsAttr ≠ DbcsAttribute.Trailing) := by
  obtain ⟨hL, hT⟩ := WellPaired.by_position _ (expand_WellPaired E v glyphs)
  refine ⟨glyphs.flatMap (expandGlyph E v), fromUtf16_ok E v hv glyphs hne, hL, hT, ?_, ?_⟩
  · intro c hc hlead
    rw [List.getLast?_eq_getElem?] at hc
    obtain ⟨c2, hc2, _, _⟩ := hL _ c hc hlead
    have hlt := (List.getElem?_eq_some_iff.1 hc2).1
    have hlt0 := (List.getElem?_eq_some_iff.1 hc).1
    omega
  · intro c hc htrail
    have hc0 : (glyphs.flatMap (expandGlyph E v))[0]? = some c := by
      rw [← hc]
      cases glyphs.flatMap (expandGlyph E v) <;> simp
    obtain ⟨j, _, hj, _⟩ := hT 0 c hc0 htrail
    omega

theorem C8_leading_trailing_pairing_witness :
    ∃ out, OutputCell._fromUtf16 sampleExternals [[0x61], [0x3042], [0x62, 0x301]]
        (Sum.inr TextAttributeBehavior.Current) = Except.ok out ∧
      (∀ (i : Nat) (c : OutputCell Nat), out[i]? = some c →
        c.DbcsAttr = DbcsAttribute.Leading →
        ∃ c2, out[i + 1]? = some c2 ∧ c2.DbcsAttr = DbcsAttribute.Trailing ∧
          c2.Chars = c.Chars) ∧
      (∀ (i : Nat) (c : OutputCell Nat), out[i]? = some c →
        c.DbcsAttr = DbcsAttribute.Trailing →
        ∃ (j : Nat) (c0 : OutputCell Nat), i = j + 1 ∧ out[j]? = some c0 ∧
          c0.DbcsAttr = DbcsAttribute.Leading ∧ c0.Chars = c.Chars) ∧
      (∀ c, out.getLast? = some c → c.DbcsAttr ≠ DbcsAttribute.Leading) ∧
      (∀ c, out.head? = some c → c.DbcsAttr ≠ DbcsAttribute.Trailing) :=
  C8_leading_trailing_pairing sampleExternals (Sum.inr TextAttributeBehavior.Current) (by simp)
    [[0x61], [0x3042], [0x62, 0x301]] (by decide)

/-! ## Construction paths -/

section Construction

variable (E : Externals TextAttribute)

theorem OutputCell_textAttribute_empty (d : DbcsAttribute) (t : TextAttribute) :
    OutputCell.OutputCell_textAttribute E [] d t = Except.error E_INVALIDARG := by
  simp [OutputCell.OutputCell_textAttribute]

theorem OutputCell_behavior_empty (d : DbcsAttribute) (b : TextAttributeBehavior) :
    OutputCell.OutputCell_behavior E [] d b = Except.error E_INVALIDARG := by
  simp [OutputCell.OutputCell_behavior]

/-- The members of the cell built from a legacy record. -/
theorem OutputCell_charInfo_members (charInfo : CHAR_INFO) :
    (OutputCell.OutputCell_charInfo E charInfo)._singleChar = charInfo.UnicodeChar ∧
    (OutputCell.OutputCell_charInfo E charInfo)._charData = [] ∧
    (OutputCell.OutputCell_charInfo E charInfo)._dbcsAttribute =
      legacyMarker charInfo.Attributes ∧
    (OutputCell.OutputCell_charInfo E charInfo)._textAttribute =
      E.SetFromLegacy E.InvalidTextAttribute charInfo.Attributes ∧
    (OutputCell.OutputCell_charInfo E charInfo)._behavior = TextAttributeBehavior.Stored := by
  unfold OutputCell.OutputCell_charInfo OutputCell._setFromCharInfo legacyMarker
  dsimp only
  split_ifs <;> exact ⟨rfl, rfl, rfl, rfl, rfl⟩

/-- The cell the view constructor builds from a view with non-empty content. -/
theorem OutputCell_view_ok (cell : OutputCellView TextAttribute) (h : cell.Chars ≠ []) :
    ∃ c, OutputCell.OutputCell_view E cell = some c ∧ c.Chars = cell.Chars ∧
      c._dbcsAttribute = cell.DbcsAttr ∧ c._behavior = cell.TextAttrBehavior ∧
      c._textAttribute = cell.TextAttr := by
  unfold OutputCell.OutputCell_view OutputCell._setFromOutputCellView
  dsimp only
  match hc : cell.Chars, h with
  | [u], _ =>
    refine ⟨{ _singleChar := u, _charData := [], _dbcsAttribute := cell.DbcsAttr,
              _textAttribute := cell.TextAttr, _behavior := cell.TextAttrBehavior },
      by simp, by simp [OutputCell.Chars, OutputCell._useSingle], rfl, rfl, rfl⟩
  | u :: w :: rest, _ =>
    refine ⟨{ _singleChar := E.UNICODE_INVALID, _charData := u :: w :: rest,
              _dbcsAttribute := cell.DbcsAttr, _textAttribute := cell.TextAttr,
              _behavior := cell.TextAttrBehavior },
      by simp, by simp [OutputCell.Chars, OutputCell._useSingle], rfl, rfl, rfl⟩

end Construction

/-- C11: the explicit-value constructor throws `E_INVALIDARG` if and only if the
glyph sequence is empty, and otherwise builds a cell with tag `Stored`, the
given value and the given width marker; the tag-mode constructor throws
`E_INVALIDARG` if and only if the glyph sequence is empty or the tag is
`Stored`, and otherwise builds a cell with tag `Current` and the given width
marker. -/
theorem C11_construction_fails_exactly_on_empty_or_Stored (E : Externals TextAttribute)
    (s : List wchar_t) (d : DbcsAttribute) :
    (∀ v : TextAttribute,
      (OutputCell.OutputCell_textAttribute E s d v = Except.error E_INVALIDARG ↔ s = []) ∧
      (s ≠ [] → ∃ c, OutputCell.OutputCell_textAttribute E s d v = Except.ok c ∧
        c._behavior = TextAttributeBehavior.Stored ∧ c._textAttribute = v ∧ c.DbcsAttr = d)) ∧
    (∀ b : TextAttributeBehavior,
      (OutputCell.OutputCell_behavior E s d b = Except.error E_INVALIDARG ↔
        (s = [] ∨ b = TextAttributeBehavior.Stored)) ∧
      (¬ (s = [] ∨ b = TextAttributeBehavior.Stored) →
        ∃ c, OutputCell.OutputCell_behavior E s d b = Except.ok c ∧
          c._behavior = TextAttributeBehavior.Current ∧ c.DbcsAttr = d)) := by
  constructor
  · intro v
    have hok : s ≠ [] → ∃ c, OutputCell.OutputCell_textAttribute E s d v = Except.ok c ∧
        c._behavior = TextAttributeBehavior.Stored ∧ c._textAttribute = v ∧ c.DbcsAttr = d := by
      intro hs
      have hspec := builtCell_CarriesSpec E (Sum.inl v) s d
      exact ⟨_, OutputCell_textAttribute_ok E s d v hs, hspec.1, hspec.2,
        builtCell_dbcsAttribute E _ s d⟩
    refine ⟨⟨?_, ?_⟩, hok⟩
    · intro herr
      by_contra hs
      obtain ⟨c, hc, _⟩ := hok hs
      rw [hc] at herr
      cases herr
    · intro hs
      rw [hs]
      exact OutputCell_textAttribute_empty E d v
  · intro b
    have hok : ¬ (s = [] ∨ b = TextAttributeBehavior.Stored) →
        ∃ c, OutputCell.OutputCell_behavior E s d b = Except.ok c ∧
          c._behavior = TextAttributeBehavior.Current ∧ c.DbcsAttr = d := by
      intro h
      have hs : s ≠ [] := fun h0 => h (Or.inl h0)
      have hb : b = TextAttributeBehavior.Current := by
        cases b with
        | Stored => exact absurd (Or.inr rfl) h
        | Current => rfl
      rw [hb]
      have hspec := builtCell_CarriesSpec E (Sum.inr TextAttributeBehavior.Current) s d
      exact ⟨_, OutputCell_behavior_ok E s d hs, hspec, builtCell_dbcsAttribute E _ s d⟩
    refine ⟨⟨?_, ?_⟩, hok⟩
    · intro herr
      by_contra h
      obtain ⟨c, hc, _⟩ := hok h
      rw [hc] at herr
      cases herr
    · rintro (hs | hb)
      · rw [hs]
        exact OutputCell_behavior_empty E d b
      · rw [hb]
        unfold OutputCell.OutputCell_behavior
        by_cases hs : s = [] <;> simp [hs, OutputCell._setFromBehavior]

theorem C11_construction_fails_exactly_on_empty_or_Stored_witness :
    (∃ c, OutputCell.OutputCell_textAttribute sampleExternals [0x62, 0x301]
        DbcsAttribute.Leading 7 = Except.ok c ∧
      c._behavior = TextAttributeBehavior.Stored ∧ c._textAttribute = 7 ∧
      c.DbcsAttr = DbcsAttribute.Leading) ∧
    (∃ c, OutputCell.OutputCell_behavior sampleExternals [0x62, 0x301]
        DbcsAttribute.Leading TextAttributeBehavior.Current = Except.ok c ∧
      c._behavior = TextAttributeBehavior.Current ∧ c.DbcsAttr = DbcsAttribute.Leading) :=
  ⟨((C11_construction_fails_exactly_on_empty_or_Stored sampleExternals [0x62, 0x301]
      DbcsAttribute.Leading).1 7).2 (by decide),
   ((C11_construction_fails_exactly_on_empty_or_Stored sampleExternals [0x62, 0x301]
      DbcsAttribute.Leading).2 TextAttributeBehavior.Current).2 (by decide)⟩

/-- C12: construction from a legacy record (code unit `u`, attribute word `A`) is
total and builds a cell with `Chars()` equal to `[u]`, tag `Stored`, the
attribute value `SetFromLegacy` makes of `A`, which `TextAttr()` returns, and
the width marker `Leading` when the leading-half flag is set in `A` (also when
the trailing-half flag is set too), otherwise `Trailing` when the trailing-half
flag is set, otherwise the standalone marker. With the leading flag set and
`u = U+0041` the marker is `Leading` and the content is `A`. -/
theorem C12_legacy_record_mapping (E : Externals TextAttribute) (charInfo : CHAR_INFO) :
    (OutputCell.OutputCell_charInfo E charInfo).Chars = [charInfo.UnicodeChar] ∧
    (OutputCell.OutputCell_charInfo E charInfo)._behavior = TextAttributeBehavior.Stored ∧
    (OutputCell.OutputCell_charInfo E charInfo)._textAttribute =
      E.SetFromLegacy E.InvalidTextAttribute charInfo.Attributes ∧
    (OutputCell.OutputCell_charInfo E charInfo).TextAttr =
      Except.ok (E.SetFromLegacy E.InvalidTextAttribute charInfo.Attributes) ∧
    (OutputCell.OutputCell_charInfo E charInfo).DbcsAttr = legacyMarker charInfo.Attributes ∧
    (WI_IsFlagSet charInfo.Attributes COMMON_LVB_LEADING_BYTE = true →
      (OutputCell.OutputCell_charInfo E charInfo).DbcsAttr = DbcsAttribute.Leading) ∧
    (WI_IsFlagSet charInfo.Attributes COMMON_LVB_LEADING_BYTE = false →
      WI_IsFlagSet charInfo.Attributes COMMON_LVB_TRAILING_BYTE = true →
      (OutputCell.OutputCell_charInfo E charInfo).DbcsAttr = DbcsAttribute.Trailing) ∧
    (WI_IsFlagSet charInfo.Attributes COMMON_LVB_LEADING_BYTE = false →
      WI_IsFlagSet charInfo.Attributes COMMON_LVB_TRAILING_BYTE = false →
      (OutputCell.OutputCell_charInfo E charInfo).DbcsAttr = DbcsAttribute.Single) ∧
    (WI_IsFlagSet charInfo.Attributes COMMON_LVB_LEADING_BYTE = true →
      charInfo.UnicodeChar = 0x41 →
      (OutputCell.OutputCell_charInfo E charInfo).DbcsAttr = DbcsAttribute.Leading ∧
      (OutputCell.OutputCell_charInfo E charInfo).Chars = [0x41]) := by
  obtain ⟨h1, h2, h3, h4, h5⟩ := OutputCell_charInfo_members E charInfo
  have hChars : (OutputCell.OutputCell_charInfo E charInfo).Chars = [charInfo.UnicodeChar] := by
    simp [OutputCell.Chars, OutputCell._useSingle, h1, h2]
  have hMark : (OutputCell.OutputCell_charInfo E charInfo).DbcsAttr =
      legacyMarker charInfo.Attributes := h3
  refine ⟨hChars, h5, h4, ?_, hMark, ?_, ?_, ?_, ?_⟩
  · simp [OutputCell.TextAttr, h5, h4]
  · intro hl
    rw [hMark]
    simp [legacyMarker, hl]
  · intro hl ht
    rw [hMark]
    simp [legacyMarker, hl, ht]
  · intro hl ht
    rw [hMark]
    simp [legacyMarker, hl, ht]
  · intro hl hu
    refine ⟨?_, ?_⟩
    · rw [hMark]
      simp [legacyMarker, hl]
    · rw [hChars, hu]

theorem C12_legacy_record_mapping_witness :
    (OutputCell.OutputCell_charInfo sampleExternals
      { UnicodeChar := 0x41, Attributes := 0x0307 }).DbcsAttr = DbcsAttribute.Leading ∧
    (OutputCell.OutputCell_charInfo sampleExternals
      { UnicodeChar := 0x41, Attributes := 0x0307 }).Chars = [0x41] :=
  (C12_legacy_record_mapping sampleExternals
    { UnicodeChar := 0x41, Attributes := 0x0307 }).2.2.2.2.2.2.2.2 (by decide) rfl

/-- C13: for every read-only cell view with non-empty content (one unit or more),
construction from the view builds a cell whose `Chars()` equals the content of
the view, whose width marker equals the marker of the view, whose tag equals
the tag of the view and whose attribute value equals the attribute value of
the view. -/
theorem C13_view_copy_is_verbatim (E : Externals TextAttribute)
    (cell : OutputCellView TextAttribute) (h : cell.Chars ≠ []) :
    ∃ c, OutputCell.OutputCell_view E cell = some c ∧ c.Chars = cell.Chars ∧
      c.DbcsAttr = cell.DbcsAttr ∧ c._behavior = cell.TextAttrBehavior ∧
      c._textAttribute = cell.TextAttr :=
  OutputCell_view_ok E cell h

theorem C13_view_copy_is_verbatim_witness :
    ∃ c, OutputCell.OutputCell_view sampleExternals
        { Chars := [0x62, 0x301], DbcsAttr := DbcsAttribute.Trailing, TextAttr := 7,
          TextAttrBehavior := TextAttributeBehavior.Stored } = some c ∧
      c.Chars = [0x62, 0x301] ∧ c.DbcsAttr = DbcsAttribute.Trailing ∧
      c._behavior = TextAttributeBehavior.Stored ∧ c._textAttribute = 7 :=
  C13_view_copy_is_verbatim sampleExternals
    { Chars := [0x62, 0x301], DbcsAttr := DbcsAttribute.Trailing, TextAttr := 7,
      TextAttrBehavior := TextAttributeBehavior.Stored } (by decide)

/-! ## Equality of constructed cells -/

/-- Two glyph-constructor specifications that build cells with the same tag and
the same attribute value are the same specification. -/
theorem spec_eq_of_CarriesSpec (v1 v2 : TextAttribute ⊕ TextAttributeBehavior)
    (hv1 : v1 ≠ Sum.inr TextAttributeBehavior.Stored)
    (hv2 : v2 ≠ Sum.inr TextAttributeBehavior.Stored)
    (c1 c2 : OutputCell TextAttribute) (h1 : CarriesSpec v1 c1) (h2 : CarriesSpec v2 c2)
    (hb : c1._behavior = c2._behavior) (ht : c1._textAttribute = c2._textAttribute) :
    v1 = v2 := by
  match v1, v2, hv1, hv2, h1, h2 with
  | Sum.inl x, Sum.inl y, _, _, h1, h2 =>
    simp only [CarriesSpec] at h1 h2
    rw [← h1.2, ← h2.2, ht]
  | Sum.inl x, Sum.inr b, _, hv2, h1, h2 =>
    simp only [CarriesSpec] at h1 h2
    rw [h1.1, h2] at hb
    exact absurd (congrArg Sum.inr hb.symm) hv2
  | Sum.inr b, Sum.inl y, hv1, _, h1, h2 =>
    simp only [CarriesSpec] at h1 h2
    rw [h1, h2.1] at hb
    exact absurd (congrArg Sum.inr hb) hv1
  | Sum.inr b1, Sum.inr b2, _, _, h1, h2 =>
    simp only [CarriesSpec] at h1 h2
    rw [← h1, ← h2, hb]

/-- C14: for every two cells built by the glyph constructors (explicit value or
`Current` tag) from non-empty contents, if the two constructions differ in the
content, or in the width marker, or in the attribute specification (two
different stored values, or a stored value on one side and `Current` on the
other, whatever the value), then both constructions succeed and `operator==`
on the two cells is false. -/
theorem C14_equality_sensitivity [DecidableEq TextAttribute] (E : Externals TextAttribute)
    (v1 v2 : TextAttribute ⊕ TextAttributeBehavior) (s1 s2 : List wchar_t)
    (d1 d2 : DbcsAttribute) (hs1 : s1 ≠ []) (hs2 : s2 ≠ [])
    (hv1 : v1 ≠ Sum.inr TextAttributeBehavior.Stored)
    (hv2 : v2 ≠ Sum.inr TextAttributeBehavior.Stored)
    (hdiff : s1 ≠ s2 ∨ d1 ≠ d2 ∨ v1 ≠ v2) :
    ∃ c1 c2, constructCell E v1 s1 d1 = Except.ok c1 ∧ constructCell E v2 s2 d2 = Except.ok c2 ∧
      OutputCell.operator_eq c1 c2 = false := by
  refine ⟨builtCell E v1 s1 d1, builtCell E v2 s2 d2, constructCell_ok E v1 hv1 s1 d1 hs1,
    constructCell_ok E v2 hv2 s2 d2 hs2, ?_⟩
  by_contra hne
  have heq : OutputCell.operator_eq (builtCell E v1 s1 d1) (builtCell E v2 s2 d2) = true := by
    simpa using hne
  obtain ⟨hc, hd, hb, ht⟩ := operator_eq_sound _ _ heq
  rw [builtCell_Chars E v1 s1 d1 hs1, builtCell_Chars E v2 s2 d2 hs2] at hc
  have hd2 : d1 = d2 := by
    have := hd
    simp only [OutputCell.DbcsAttr, builtCell_dbcsAttribute] at this
    exact this
  have hv : v1 = v2 :=
    spec_eq_of_CarriesSpec v1 v2 hv1 hv2 _ _ (builtCell_CarriesSpec E v1 s1 d1)
      (builtCell_CarriesSpec E v2 s2 d2) hb ht
  rcases hdiff with h | h | h
  · exact h hc
  · exact h hd2
  · exact h hv

theorem C14_equality_sensitivity_witness :
    ∃ c1 c2, constructCell sampleExternals (Sum.inl 0xFFFFFFFF) [0x41] DbcsAttribute.Single
        = Except.ok c1 ∧
      constructCell sampleExternals (Sum.inr TextAttributeBehavior.Current) [0x41]
        DbcsAttribute.Single = Except.ok c2 ∧
      OutputCell.operator_eq c1 c2 = false :=
  C14_equality_sensitivity sampleExternals (Sum.inl 0xFFFFFFFF)
    (Sum.inr TextAttributeBehavior.Current) [0x41] [0x41] DbcsAttribute.Single
    DbcsAttribute.Single (by decide) (by decide) (by simp) (by simp)
    (Or.inr (Or.inr (by simp)))

/-! ## Content is never empty; batch conversion on empty glyphs; `SetChars` frame -/

section Frame

variable (E : Externals TextAttribute)

/-- The view returned by `Chars` has at least one unit, whatever the members hold:
it is the inline unit when the unit sequence is empty, the unit sequence
otherwise. -/
theorem Chars_length_pos (c : OutputCell TextAttribute) : 1 ≤ c.Chars.length := by
  unfold OutputCell.Chars OutputCell._useSingle
  by_cases h : c._charData = []
  · simp [h]
  · simp only [List.isEmpty_iff, h, if_false, Bool.false_eq_true]
    exact List.length_pos.2 h

theorem constructorDispatch_empty (v : TextAttribute ⊕ TextAttributeBehavior)
    (cells : List (OutputCell TextAttribute)) (d : DbcsAttribute) :
    OutputCell.constructorDispatch E v cells [] d = Except.error E_INVALIDARG := by
  cases v with
  | inl t => simp only [OutputCell.constructorDispatch, OutputCell_textAttribute_empty]
  | inr b => simp only [OutputCell.constructorDispatch, OutputCell_behavior_empty]

/-- The loop throws `E_INVALIDARG` as soon as it reaches an empty glyph. -/
theorem fromUtf16_loop_error (v : TextAttribute ⊕ TextAttributeBehavior)
    (hv : v ≠ Sum.inr TextAttributeBehavior.Stored) (glyphs : List (List wchar_t))
    (hmem : [] ∈ glyphs) (cells : List (OutputCell TextAttribute)) :
    OutputCell._fromUtf16_loop E v glyphs cells = Except.error E_INVALIDARG := by
  induction glyphs generalizing cells with
  | nil => cases hmem
  | cons g rest ih =>
    unfold OutputCell._fromUtf16_loop
    by_cases hg : g = []
    · subst hg
      by_cases hw : E.IsGlyphFullWidth [] = true
      · simp only [hw, if_true, constructorDispatch_empty]
      · simp only [hw, Bool.false_eq_true, if_false, constructorDispatch_empty]
    · have hrest : [] ∈ rest := by
        rcases List.mem_cons.1 hmem with h | h
        · exact absurd h.symm hg
        · exact h
      by_cases hw : E.IsGlyphFullWidth g = true
      · simp only [hw, if_true, constructorDispatch_ok E v hv _ g _ hg]
        exact ih hrest _
      · simp only [hw, Bool.false_eq_true, if_false, constructorDispatch_ok E v hv _ g _ hg]
        exact ih hrest _

/-- Batch conversion with an explicit value or the `Current` tag throws
`E_INVALIDARG` exactly when some glyph is empty. -/
theorem fromUtf16_error_iff (v : TextAttribute ⊕ TextAttributeBehavior)
    (hv : v ≠ Sum.inr TextAttributeBehavior.Stored) (glyphs : List (List wchar_t)) :
    OutputCell._fromUtf16 E glyphs v = Except.error E_INVALIDARG ↔ [] ∈ glyphs := by
  constructor
  · intro herr
    by_contra hmem
    have hne : ∀ g ∈ glyphs, g ≠ [] := by
      intro g hg h0
      exact hmem (h0 ▸ hg)
    rw [fromUtf16_ok E v hv glyphs hne] at herr
    cases herr
  · intro hmem
    exact fromUtf16_loop_error E v hv glyphs hmem []

end Frame

/-- C16: for every cell obtained from any successful construction followed by
any sequence of `SetChars` calls (with any view, the empty one included) and of
marker and attribute mutations, `Chars()` returns a view of length at least 1. -/
theorem C16_content_is_never_empty (E : Externals TextAttribute)
    (c : OutputCell TextAttribute) (h : Obtainable E c) :
    1 ≤ c.Chars.length ∧ c.Chars ≠ [] := by
  have hpos : 1 ≤ c.Chars.length := by
    induction h with
    | construct c _ => exact Chars_length_pos c
    | SetChars c chars _ _ => exact Chars_length_pos _
    | DbcsAttr_assign c d _ _ => exact Chars_length_pos _
    | TextAttr_assign c c2 t _ _ _ => exact Chars_length_pos c2
  exact ⟨hpos, List.length_pos.1 hpos⟩

theorem C16_content_is_never_empty_witness :
    Obtainable sampleExternals (sampleTwoUnitCell.SetChars sampleExternals []) ∧
    1 ≤ (sampleTwoUnitCell.SetChars sampleExternals []).Chars.length ∧
    (sampleTwoUnitCell.SetChars sampleExternals []).Chars ≠ [] :=
  have h : Obtainable sampleExternals (sampleTwoUnitCell.SetChars sampleExternals []) :=
    Obtainable.SetChars _ []
      (Obtainable.construct _
        (Constructed.OutputCell_textAttribute [0x61, 0x62] DbcsAttribute.Single 7 _ rfl))
  ⟨h, C16_content_is_never_empty sampleExternals _ h⟩

/-- C17: for every width classifier and every glyph list, `FromUtf16` (uniform
`Current` tag) and batch conversion with a uniform explicit attribute value
throw `E_INVALIDARG` if and only if at least one glyph of the list is the empty
sequence; when they throw no cell sequence is returned, and when no glyph is
empty a cell sequence is returned. -/
theorem C17_batch_conversion_rejects_empty_glyphs (E : Externals TextAttribute)
    (glyphs : List (List wchar_t)) :
    (OutputCell.FromUtf16 E glyphs = Except.error E_INVALIDARG ↔ [] ∈ glyphs) ∧
    (∀ t : TextAttribute,
      OutputCell._fromUtf16 E glyphs (Sum.inl t) = Except.error E_INVALIDARG ↔ [] ∈ glyphs) ∧
    ([] ∈ glyphs →
      (∀ out, OutputCell.FromUtf16 E glyphs ≠ Except.ok out) ∧
      (∀ (t : TextAttribute) out, OutputCell._fromUtf16 E glyphs (Sum.inl t) ≠ Except.ok out)) ∧
    ([] ∉ glyphs →
      (∃ out, OutputCell.FromUtf16 E glyphs = Except.ok out) ∧
      (∀ t : TextAttribute, ∃ out, OutputCell._fromUtf16 E glyphs (Sum.inl t) = Except.ok out)) := by
  have hC : (Sum.inr TextAttributeBehavior.Current : TextAttribute ⊕ TextAttributeBehavior) ≠
      Sum.inr TextAttributeBehavior.Stored := by simp
  have hT : ∀ t : TextAttribute,
      (Sum.inl t : TextAttribute ⊕ TextAttributeBehavior) ≠
        Sum.inr TextAttributeBehavior.Stored := by simp
  refine ⟨fromUtf16_error_iff E _ hC glyphs, fun t => fromUtf16_error_iff E _ (hT t) glyphs,
    ?_, ?_⟩
  · intro hmem
    constructor
    · intro out hout
      have herr := (fromUtf16_error_iff E _ hC glyphs).2 hmem
      unfold OutputCell.FromUtf16 at hout
      rw [herr] at hout
      cases hout
    · intro t out hout
      rw [(fromUtf16_error_iff E _ (hT t) glyphs).2 hmem] at hout
      cases hout
  · intro hmem
    have hne : ∀ g ∈ glyphs, g ≠ [] := by
      intro g hg h0
      exact hmem (h0 ▸ hg)
    exact ⟨⟨_, fromUtf16_ok E _ hC glyphs hne⟩, fun t => ⟨_, fromUtf16_ok E _ (hT t) glyphs hne⟩⟩

theorem C17_batch_conversion_rejects_empty_glyphs_witness :
    (OutputCell.FromUtf16 sampleExternals [[0x61], [], [0x3042]] = Except.error E_INVALIDARG) ∧
    (∀ out, OutputCell.FromUtf16 sampleExternals [[0x61], [], [0x3042]] ≠ Except.ok out) ∧
    (∃ out, OutputCell.FromUtf16 sampleExternals [[0x61], [0x3042]] = Except.ok out) :=
  ⟨(C17_batch_conversion_rejects_empty_glyphs sampleExternals [[0x61], [], [0x3042]]).1.2
     (by decide),
   ((C17_batch_conversion_rejects_empty_glyphs sampleExternals [[0x61], [], [0x3042]]).2.2.1
     (by decide)).1,
   ((C17_batch_conversion_rejects_empty_glyphs sampleExternals [[0x61], [0x3042]]).2.2.2
     (by decide)).1⟩

/-- C18: for every cell `c` and every view `s`, `c.SetChars(s)` leaves the width
marker, the tag and the stored attribute value of `c` unchanged, so `TextAttr()`
gives after the call what it gave before, and throws after the call exactly
when it threw before. -/
theorem C18_SetChars_touches_only_the_content (E : Externals TextAttribute)
    (c : OutputCell TextAttribute) (s : List wchar_t) :
    (c.SetChars E s).DbcsAttr = c.DbcsAttr ∧
    (c.SetChars E s)._behavior = c._behavior ∧
    (c.SetChars E s)._textAttribute = c._textAttribute ∧
    (c.SetChars E s).TextAttr = c.TextAttr ∧
    ((c.SetChars E s).TextAttr = Except.error E_INVALIDARG ↔
      c.TextAttr = Except.error E_INVALIDARG) := by
  have hd := setFromStringView_dbcsAttribute E c s
  have hb := setFromStringView_behavior E c s
  have ht := setFromStringView_textAttribute E c s
  have hT : (c.SetChars E s).TextAttr = c.TextAttr := by
    unfold OutputCell.TextAttr OutputCell.SetChars
    rw [hb, ht]
  exact ⟨hd, hb, ht, hT, by rw [hT]⟩

/-- C19: for every cell `c`, holding one-unit or multi-unit content, `SetChars`
with the empty view is accepted (the call cannot throw) and afterwards `Chars()`
is the one-unit view made of `UNICODE_INVALID`, in particular not an empty view;
on the cell holding the two-unit content `ab` the result is not the previous
content. -/
theorem C19_SetChars_with_empty_view (E : Externals TextAttribute)
    (c : OutputCell TextAttribute) :
    (c.SetChars E []).Chars = [E.UNICODE_INVALID] ∧
    (c.SetChars E []).Chars ≠ [] ∧
    (c.SetChars E [])._singleChar = E.UNICODE_INVALID ∧
    (c.SetChars E [])._charData = [] ∧
    (sampleTwoUnitCell.SetChars sampleExternals []).Chars = [0xFFFF] ∧
    (sampleTwoUnitCell.SetChars sampleExternals []).Chars ≠ sampleTwoUnitCell.Chars := by
  have h := setFromStringView_other E c [] (by simp)
  have hC : (c.SetChars E []).Chars = [E.UNICODE_INVALID] := by
    unfold OutputCell.SetChars
    simp [OutputCell.Chars, OutputCell._useSingle, h.1, h.2]
  refine ⟨hC, ?_, h.1, h.2, rfl, ?_⟩
  · rw [hC]
    simp
  · decide

/-! ## Equality across construction paths -/

section Reach

variable (E : Externals TextAttribute)

/-- The copy of the view of a cell has the content, the marker, the tag and the
attribute value of that cell, and canonical storage. -/
theorem view_copy_of_viewOf (src c : OutputCell TextAttribute)
    (h : OutputCell.OutputCell_view E src.viewOf = some c) :
    c.Chars = src.Chars ∧ c._dbcsAttribute = src._dbcsAttribute ∧
      c._behavior = src._behavior ∧ c._textAttribute = src._textAttribute ∧
      CanonicalStorage E c := by
  have hne : src.viewOf.Chars ≠ [] := List.length_pos.1 (Chars_length_pos src)
  obtain ⟨c2, hc2, hC, hD, hB, hT⟩ := OutputCell_view_ok E src.viewOf hne
  rw [h] at hc2
  cases hc2
  exact ⟨hC, hD, hB, hT, CanonicalStorage_of_setFromOutputCellView E _ c src.viewOf rfl h⟩

/-- The view of a cell can always be copied. -/
theorem view_copy_of_viewOf_ok (src : OutputCell TextAttribute) :
    ∃ c, OutputCell.OutputCell_view E src.viewOf = some c := by
  have hne : src.viewOf.Chars ≠ [] := List.length_pos.1 (Chars_length_pos src)
  obtain ⟨c, hc, _⟩ := OutputCell_view_ok E src.viewOf hne
  exact ⟨c, hc⟩

/-- A reachable cell with the tag `Current` holds `InvalidTextAttribute` in its
attribute member: the tag-mode constructor puts it there, `TextAttr()` gives no
access to it, and a view copy takes tag and value from a reachable cell. -/
theorem Reachable.current_invalid {c : OutputCell TextAttribute} (h : Reachable E c) :
    c._behavior = TextAttributeBehavior.Current → c._textAttribute = E.InvalidTextAttribute := by
  induction h with
  | OutputCell_behavior charData d b c hc =>
    intro _
    by_cases hs : charData = []
    · simp [OutputCell.OutputCell_behavior, hs] at hc
    · cases b with
      | Stored => simp [OutputCell.OutputCell_behavior, OutputCell._setFromBehavior, hs] at hc
      | Current =>
        rw [OutputCell_behavior_ok E charData d hs] at hc
        cases hc
        simp [builtCell, setFromStringView_textAttribute]
  | OutputCell_textAttribute charData d t c hc =>
    intro hcur
    by_cases hs : charData = []
    · simp [OutputCell.OutputCell_textAttribute, hs] at hc
    · rw [OutputCell_textAttribute_ok E charData d t hs] at hc
      cases hc
      have hspec := builtCell_CarriesSpec E (Sum.inl t) charData d
      simp only [CarriesSpec] at hspec
      rw [hspec.1] at hcur
      cases hcur
  | OutputCell_charInfo charInfo =>
    intro hcur
    rw [(OutputCell_charInfo_members E charInfo).2.2.2.2] at hcur
    cases hcur
  | OutputCell_view src c _ hc ih =>
    intro hcur
    obtain ⟨_, _, hB, hT, _⟩ := view_copy_of_viewOf E src c hc
    rw [hT]
    exact ih (hB ▸ hcur)
  | SetChars c chars _ ih =>
    intro hcur
    unfold OutputCell.SetChars at hcur ⊢
    rw [setFromStringView_behavior] at hcur
    rw [setFromStringView_textAttribute]
    exact ih hcur
  | DbcsAttr_assign c d _ ih => exact ih
  | TextAttr_assign c c2 t _ hc _ =>
    intro hcur
    unfold OutputCell.TextAttr_assign at hc
    split at hc
    · cases hc
    · next hnot =>
      cases hc
      exact absurd hcur hnot

theorem BuiltByConstructor.reachable {c : OutputCell TextAttribute}
    (h : BuiltByConstructor E c) : Reachable E c := by
  induction h with
  | OutputCell_behavior charData d b c2 hc => exact Reachable.OutputCell_behavior charData d b _ hc
  | OutputCell_textAttribute charData d t c2 hc =>
    exact Reachable.OutputCell_textAttribute charData d t _ hc
  | OutputCell_charInfo charInfo => exact Reachable.OutputCell_charInfo charInfo
  | OutputCell_view src c2 hsrc hc => exact Reachable.OutputCell_view src _ hsrc hc

/-- Every construction path leaves canonical storage behind. -/
theorem BuiltByConstructor.canonical {c : OutputCell TextAttribute}
    (h : BuiltByConstructor E c) : CanonicalStorage E c := by
  induction h with
  | OutputCell_behavior charData d b c hc =>
    by_cases hs : charData = []
    · simp [OutputCell.OutputCell_behavior, hs] at hc
    · cases b with
      | Stored => simp [OutputCell.OutputCell_behavior, OutputCell._setFromBehavior, hs] at hc
      | Current =>
        rw [OutputCell_behavior_ok E charData d hs] at hc
        cases hc
        exact CanonicalStorage_setFromStringView E _ charData (fun _ => rfl)
  | OutputCell_textAttribute charData d t c hc =>
    by_cases hs : charData = []
    · simp [OutputCell.OutputCell_textAttribute, hs] at hc
    · rw [OutputCell_textAttribute_ok E charData d t hs] at hc
      cases hc
      exact CanonicalStorage_setFromStringView E _ charData (fun _ => rfl)
  | OutputCell_charInfo charInfo => exact Or.inl (OutputCell_charInfo_members E charInfo).2.1
  | OutputCell_view src c _ hc => exact (view_copy_of_viewOf E src c hc).2.2.2.2

/-- The views of cells are views: every reachable cell is obtainable. -/
theorem Reachable.obtainable {c : OutputCell TextAttribute} (h : Reachable E c) :
    Obtainable E c := by
  induction h with
  | OutputCell_behavior charData d b c hc =>
    exact Obtainable.construct _ (Constructed.OutputCell_behavior charData d b c hc)
  | OutputCell_textAttribute charData d t c hc =>
    exact Obtainable.construct _ (Constructed.OutputCell_textAttribute charData d t c hc)
  | OutputCell_charInfo charInfo =>
    exact Obtainable.construct _ (Constructed.OutputCell_charInfo charInfo)
  | OutputCell_view src c _ hc _ =>
    exact Obtainable.construct _ (Constructed.OutputCell_view src.viewOf c hc)
  | SetChars c chars _ ih => exact Obtainable.SetChars c chars ih
  | DbcsAttr_assign c d _ ih => exact Obtainable.DbcsAttr_assign c d ih
  | TextAttr_assign c c2 t _ hc ih => exact Obtainable.TextAttr_assign c c2 t ih hc

/-- On reachable cells with canonical storage `operator==` is exactly equality of
content, width marker, tag and, when the tag is `Stored`, stored value. -/
theorem operator_eq_iff_of_canonical [DecidableEq TextAttribute]
    (a b : OutputCell TextAttribute) (ha : Reachable E a) (hb : Reachable E b)
    (hca : CanonicalStorage E a) (hcb : CanonicalStorage E b) :
    OutputCell.operator_eq a b = true ↔
      (a.Chars = b.Chars ∧ a.DbcsAttr = b.DbcsAttr ∧ a._behavior = b._behavior ∧
        (a._behavior = TextAttributeBehavior.Stored → a._textAttribute = b._textAttribute)) := by
  constructor
  · intro h
    obtain ⟨h1, h2, h3, h4⟩ := operator_eq_sound a b h
    exact ⟨h1, h2, h3, fun _ => h4⟩
  · rintro ⟨hc, hd, hbeh, ht⟩
    obtain ⟨h1, h2⟩ := CanonicalStorage.members_of_Chars E hca hcb hc
    have hattr : a._textAttribute = b._textAttribute := by
      cases hmode : a._behavior with
      | Stored => exact ht hmode
      | Current =>
        rw [ha.current_invalid E hmode, hb.current_invalid E (hbeh ▸ hmode)]
    exact (operator_eq_iff_members a b).2 ⟨h1, h2, hd, hattr, hbeh⟩

end Reach

/-- C15: any two cells built via construction paths (tag-mode constructor,
explicit-value constructor, legacy record, copy of the view of a reachable
cell) that have the same content, the same width marker, the same tag and, when
the tag is `Stored`, the same stored attribute value, compare equal under
`operator==`; in particular the copy of the view of a `Current` cell compares
equal to a tag-mode-constructed `Current` cell with the same content and
marker, and for every non-empty content and marker such a pair exists. -/
theorem C15_equality_across_constructors [DecidableEq TextAttribute]
    (E : Externals TextAttribute) :
    (∀ a b : OutputCell TextAttribute, BuiltByConstructor E a → BuiltByConstructor E b →
      a.Chars = b.Chars → a.DbcsAttr = b.DbcsAttr → a._behavior = b._behavior →
      (a._behavior = TextAttributeBehavior.Stored → a._textAttribute = b._textAttribute) →
      OutputCell.operator_eq a b = true) ∧
    (∀ (src a b : OutputCell TextAttribute) (s : List wchar_t) (d : DbcsAttribute),
      Reachable E src → src._behavior = TextAttributeBehavior.Current →
      OutputCell.OutputCell_view E src.viewOf = some a →
      OutputCell.OutputCell_behavior E s d TextAttributeBehavior.Current = Except.ok b →
      a.Chars = b.Chars → a.DbcsAttr = b.DbcsAttr → OutputCell.operator_eq a b = true) ∧
    (∀ (s : List wchar_t) (d : DbcsAttribute), s ≠ [] →
      ∃ src a, OutputCell.OutputCell_behavior E s d TextAttributeBehavior.Current =
          Except.ok src ∧
        OutputCell.OutputCell_view E src.viewOf = some a ∧
        OutputCell.operator_eq a src = true) := by
  have hmain : ∀ a b : OutputCell TextAttribute, BuiltByConstructor E a →
      BuiltByConstructor E b → a.Chars = b.Chars → a.DbcsAttr = b.DbcsAttr →
      a._behavior = b._behavior →
      (a._behavior = TextAttributeBehavior.Stored → a._textAttribute = b._textAttribute) →
      OutputCell.operator_eq a b = true := by
    intro a b ha hb hc hd hbeh ht
    exact (operator_eq_iff_of_canonical E a b (ha.reachable E) (hb.reachable E)
      (ha.canonical E) (hb.canonical E)).2 ⟨hc, hd, hbeh, ht⟩
  have hview : ∀ (src a b : OutputCell TextAttribute) (s : List wchar_t) (d : DbcsAttribute),
      Reachable E src → src._behavior = TextAttributeBehavior.Current →
      OutputCell.OutputCell_view E src.viewOf = some a →
      OutputCell.OutputCell_behavior E s d TextAttributeBehavior.Current = Except.ok b →
      a.Chars = b.Chars → a.DbcsAttr = b.DbcsAttr → OutputCell.operator_eq a b = true := by
    intro src a b s d hsrc hcur ha hb hc hd
    have haB : a._behavior = TextAttributeBehavior.Current := by
      rw [(view_copy_of_viewOf E src a ha).2.2.1, hcur]
    have hbB : b._behavior = TextAttributeBehavior.Current := by
      by_cases hs : s = []
      · simp [OutputCell.OutputCell_behavior, hs] at hb
      · rw [OutputCell_behavior_ok E s d hs] at hb
        cases hb
        exact builtCell_CarriesSpec E (Sum.inr TextAttributeBehavior.Current) s d
    refine hmain a b (BuiltByConstructor.OutputCell_view src a hsrc ha)
      (BuiltByConstructor.OutputCell_behavior s d _ b hb) hc hd (by rw [haB, hbB]) ?_
    intro hst
    rw [haB] at hst
    cases hst
  refine ⟨hmain, hview, ?_⟩
  intro s d hs
  have hsrc := OutputCell_behavior_ok E s d hs
  obtain ⟨a, ha⟩ := view_copy_of_viewOf_ok E
    (builtCell E (Sum.inr TextAttributeBehavior.Current) s d)
  obtain ⟨hC, hD, _, _, _⟩ := view_copy_of_viewOf E _ a ha
  exact ⟨_, a, hsrc, ha,
    hview _ a _ s d (Reachable.OutputCell_behavior s d _ _ hsrc)
      (builtCell_CarriesSpec E (Sum.inr TextAttributeBehavior.Current) s d) ha hsrc hC hD⟩

theorem C15_equality_across_constructors_witness :
    (∃ src a, OutputCell.OutputCell_behavior sampleExternals [0x62, 0x301]
          DbcsAttribute.Leading TextAttributeBehavior.Current = Except.ok src ∧
        OutputCell.OutputCell_view sampleExternals src.viewOf = some a ∧
        OutputCell.operator_eq a src = true) ∧
    OutputCell.operator_eq
      (OutputCell.OutputCell_charInfo sampleExternals { UnicodeChar := 0x41, Attributes := 7 })
      ({ _singleChar := 0x41, _charData := [], _dbcsAttribute := DbcsAttribute.Single,
         _textAttribute := 7, _behavior := TextAttributeBehavior.Stored } : OutputCell Nat)
      = true :=
  ⟨(C15_equality_across_constructors sampleExternals).2.2 [0x62, 0x301] DbcsAttribute.Leading
     (by decide),
   (C15_equality_across_constructors sampleExternals).1 _ _
     (BuiltByConstructor.OutputCell_charInfo { UnicodeChar := 0x41, Attributes := 7 })
     (BuiltByConstructor.OutputCell_textAttribute [0x41] DbcsAttribute.Single 7 _ rfl)
     rfl rfl rfl (fun _ => rfl)⟩

end OutputCellModel
